import Mathlib

/-!
Verification development for the mutation-stream projector feed
(`secondary/projector/feed.go`).

The feed control plane is embedded shallowly: the feed's mutable fields
become a `Feed` record, the per-bucket processing loops of `start`,
`restartVbuckets`, `shutdownVbuckets` and `addBuckets` become pure
functions threading the record, and the asynchronous environment (cluster
topology lookups, upstream feeder calls, endpoint transports, the timing
of the per-batch deadline) is supplied through an `Env` record of oracles.
The back channel is part of the state: a FIFO list whose elements model
the `[]interface{}` values carried by the Go channel.

The `TsVbuuid` timestamp type and a few tiny helpers (`RemoveUint16`) live
outside the given sources, in other packages of the same repository; they
are modelled from the specification, which describes a timestamp as an
ordered association from partition number to (seqno, branch, snapshot
start, snapshot end) supporting union, filter, selection, membership,
emptiness and enumeration, with value (copy) semantics.
-/

namespace Projector

/-- Modelled from the spec: the data carried for one partition inside a
timestamp set - (sequence-number, branch-id, snapshot-start,
snapshot-end).  The protobuf implementation is not among the given
sources. -/
structure TsEntry where
  seqno : Nat
  vbuuid : Nat
  sStart : Nat
  sEnd : Nat
deriving DecidableEq, Repr

/-- Modelled from the spec: a partition timestamp (`protobuf.TsVbuuid`) -
"an ordered association from partition number to (sequence-number,
branch-id, start, end)".  Represented as a list of (vbno, entry) pairs;
the operations below mirror the methods the feed uses.  Operations return
new values (the spec: "Timestamp values are immutable snapshots"). -/
structure TsVbuuid where
  pool : String
  bucket : String
  entries : List (Nat × TsEntry)
deriving DecidableEq, Repr

namespace TsVbuuid

/-- `GetVbnos` - enumeration of the partition numbers, in order. -/
def getVbnos (ts : TsVbuuid) : List Nat :=
  ts.entries.map Prod.fst

/-- `Contains` - membership test for a partition number. -/
def hasVbno (ts : TsVbuuid) (vbno : Nat) : Bool :=
  decide (vbno ∈ ts.getVbnos)

/-- `Get` - the association entry for a partition; `none` models the
not-found error (also the behaviour on a nil timestamp, which the feed
treats as an absent entry). -/
def get (ts : TsVbuuid) (vbno : Nat) : Option TsEntry :=
  (ts.entries.find? (fun p => decide (p.1 = vbno))).map Prod.snd

/-- `Append` - append one partition entry at the end. -/
def append (ts : TsVbuuid) (vbno seqno vbuuid sStart sEnd : Nat) : TsVbuuid :=
  { ts with entries := ts.entries ++ [(vbno, ⟨seqno, vbuuid, sStart, sEnd⟩)] }

/-- `FilterByVbuckets` - remove the entries whose partition is listed. -/
def filterByVbuckets (ts : TsVbuuid) (vbnos : List Nat) : TsVbuuid :=
  { ts with entries := ts.entries.filter (fun p => decide (p.1 ∉ vbnos)) }

/-- `SelectByVbuckets` - keep only the entries whose partition is listed. -/
def selectByVbuckets (ts : TsVbuuid) (vbnos : List Nat) : TsVbuuid :=
  { ts with entries := ts.entries.filter (fun p => decide (p.1 ∈ vbnos)) }

/-- `Union` - association union, keeping the receiver's entries and adding
the argument's entries for partitions the receiver lacks.  The argument is
an `Option` because the Go receiver methods are called with possibly-nil
arguments; a nil timestamp contributes nothing. -/
def union (ts : TsVbuuid) (other : Option TsVbuuid) : TsVbuuid :=
  { ts with entries :=
      ts.entries ++ (match other with
        | none => []
        | some o => o.entries.filter (fun p => !(ts.hasVbno p.1))) }

/-- `Union` on a possibly-nil receiver: a nil receiver yields the argument
(a nil timestamp is identified with an absent/empty one). -/
def unionO : Option TsVbuuid → TsVbuuid → TsVbuuid
  | none, y => y
  | some x, y => x.union (some y)

/-- `Len` - number of entries. -/
def len (ts : TsVbuuid) : Nat :=
  ts.entries.length

/-- `IsEmpty`. -/
def isEmpty (ts : TsVbuuid) : Bool :=
  ts.entries.isEmpty

end TsVbuuid

/-- Association-list lookup used for the feed's per-bucket Go maps. -/
def alookup {κ α : Type} [DecidableEq κ] : List (κ × α) → κ → Option α
  | [], _ => none
  | p :: rest, k => if p.1 = k then some p.2 else alookup rest k

/-- Remove every binding of a key (`delete` on a Go map). -/
def aerase {κ α : Type} [DecidableEq κ] : List (κ × α) → κ → List (κ × α)
  | [], _ => []
  | p :: rest, k => if p.1 = k then aerase rest k else p :: aerase rest k

/-- Set a key's binding (`m[k] = v` on a Go map). -/
def ainsert {κ α : Type} [DecidableEq κ] (m : List (κ × α)) (k : κ) (v : α) :
    List (κ × α) :=
  (k, v) :: aerase m k

/-- Membership in a string set (the `feeders` / `kvdata` key sets). -/
def sinsert (s : List String) (k : String) : List String :=
  if k ∈ s then s else k :: s

/-- `mcd.Status` values the feed distinguishes. -/
inductive McdStatus
  | success
  | rollback
  | notMyVbucket
  | other (code : Nat)
deriving DecidableEq, Repr

/-- The error kinds of `projector/client` the feed returns. -/
inductive ProjErr
  | inconsistentFeed
  | invalidBucket
  | invalidVbucket
  | feeder
  | notMyVbucket
  | streamRequest
  | streamEnd
  | responseTimeout
  | clusterInfo
  | endpointErr (raddr : String)
deriving DecidableEq, Repr

/-- The control structs posted on the back channel
(`controlStreamRequest`, `controlStreamEnd`, `controlFinKVData`). -/
inductive CtrlVal
  | streamRequest (bucket : String) (opq : Nat) (status : McdStatus)
      (vbno : Nat) (vbuuid : Nat) (seqno : Nat)
  | streamEnd (bucket : String) (opq : Nat) (status : McdStatus) (vbno : Nat)
  | finKVData (bucket : String)
deriving DecidableEq, Repr

/-- The dynamic value found at index 0 of a back-channel message
(`msg[0] : interface\x7b\x7d`): either a pointer to one of the control structs, or
- after the reconciler re-enqueues a held message - a `[]interface\x7b\x7d`
slice value. -/
inductive GoVal
  | ctrl (c : CtrlVal)
  | slice (xs : List GoVal)

/-- The calls the feed issues to its collaborators (upstream feeder and
data-path workers).  Recorded as a trace. -/
inductive UpCall
  | startVb (opq : Nat) (ts : TsVbuuid)
  | endVb (opq : Nat) (ts : TsVbuuid)
  | updateTs (bucket : String) (ts : TsVbuuid)
  | addEngines (bucket : String)
  | deleteEngines (bucket : String) (uuids : List Nat)
deriving DecidableEq, Repr

/-- An engine: subscriber uuid bound to its evaluator (represented by the
bucket it projects) and its router (represented by its endpoint list). -/
structure Engine where
  uuid : Nat
  bucket : String
  router : List String
deriving DecidableEq, Repr

/-- The mutable state of a `Feed` (the fields of the Go struct that the
claims concern; immutable configuration except `topic` and the channels'
identity is dropped). -/
structure Feed where
  topic : String
  endpointType : String
  reqTss : List (String × TsVbuuid)
  actTss : List (String × TsVbuuid)
  rollTss : List (String × TsVbuuid)
  feeders : List String
  kvdata : List String
  engines : List (String × List (Nat × Engine))
  endpoints : List (String × Nat)
  backch : List GoVal

/-- Oracles for the feed's external collaborators.  Each fallible external
call's outcome is a function of its arguments; `cut` gives, per bucket,
how many messages a reconciler run may dequeue before its deadline
fires. -/
structure Env where
  localVbuckets : String → String → Option (List Nat)
  bucketDetails : String → String → List Nat → Bool
  openFeed : String → String → Option ProjErr
  startStreamsOk : Nat → TsVbuuid → Bool
  endStreamsOk : Nat → TsVbuuid → Bool
  cut : String → Nat
  equivalentIP : String → List String → Option String
  ping : Nat → Bool
  factory : String → String → String → Option Nat

/-- The subscriber part of a `MutationTopicRequest` / `AddBucketsRequest` /
`AddInstancesRequest`: the evaluator map (uuid to the bucket the evaluator
reports) and the router map (uuid to the router's endpoint list); `none`
models a failing extraction. -/
structure SubReq where
  evaluators : Option (List (Nat × String))
  routers : Option (List (Nat × List String))

/-- `MutationTopicRequest`. -/
structure MutationTopicRequest where
  endpointType : String
  reqTimestamps : List TsVbuuid
  sub : SubReq

/-- `AddBucketsRequest`. -/
structure AddBucketsRequest where
  reqTimestamps : List TsVbuuid
  sub : SubReq

/-- `RestartVbucketsRequest`. -/
structure RestartVbucketsRequest where
  restartTimestamps : List TsVbuuid

/-- `ShutdownVbucketsRequest`. -/
structure ShutdownVbucketsRequest where
  shutdownTimestamps : List TsVbuuid

/-- `DelBucketsRequest`. -/
structure DelBucketsRequest where
  buckets : List String

/-- `AddInstancesRequest`. -/
structure AddInstancesRequest where
  sub : SubReq

/-- `DelInstancesRequest`. -/
structure DelInstancesRequest where
  instanceIds : List Nat

/-- `RepairEndpointsRequest`. -/
structure RepairEndpointsRequest where
  endpoints : List String

/-- `feed.endpointRaddrs()`. -/
def endpointRaddrs (feed : Feed) : List String :=
  feed.endpoints.map Prod.fst

/-- `feed.subscribers(req)`: extract evaluators and routers; fail with
`InconsistentFeed` when either extraction errors, the lengths differ, or
an evaluator uuid is missing from the router map. -/
def feedSubscribers (req : SubReq) :
    Except ProjErr (List (Nat × String) × List (Nat × List String)) :=
  match req.evaluators with
  | none => Except.error ProjErr.inconsistentFeed
  | some evals =>
    match req.routers with
    | none => Except.error ProjErr.inconsistentFeed
    | some routers =>
      if evals.length ≠ routers.length then Except.error ProjErr.inconsistentFeed
      else if evals.any (fun e => (alookup routers e.1).isNone) then
        Except.error ProjErr.inconsistentFeed
      else Except.ok (evals, routers)

/-- The shared body of `feed.startEndpoints` and `feed.repairEndpoints`
for one remote address: normalise through `EquivalentIP`, reuse a live
endpoint, otherwise construct one through the factory; on any failure
record the error and move on; on success register the endpoint under both
the raw and the canonical address. -/
def restartEndpoint (env : Env) (feed : Feed) (raddr : String)
    (errAcc : Option ProjErr) : Feed × Option ProjErr :=
  match env.equivalentIP raddr (endpointRaddrs feed) with
  | none => (feed, some (ProjErr.endpointErr raddr))
  | some raddr1 =>
    let reg := fun (ep : Nat) =>
      { feed with endpoints := ainsert (ainsert feed.endpoints raddr ep) raddr1 ep }
    match alookup feed.endpoints raddr1 with
    | some ep =>
      if env.ping ep then (reg ep, errAcc)
      else
        match env.factory feed.topic feed.endpointType raddr with
        | none => (feed, some (ProjErr.endpointErr raddr))
        | some ep2 => (reg ep2, errAcc)
    | none =>
      match env.factory feed.topic feed.endpointType raddr with
      | none => (feed, some (ProjErr.endpointErr raddr))
      | some ep2 => (reg ep2, errAcc)

/-- `feed.startEndpoints(routers)`: iterate every endpoint address of
every router.  The source records failures in a local error variable but
ends with a literal `return nil`, so the function never reports one. -/
def startEndpoints (env : Env) (feed : Feed)
    (routers : List (Nat × List String)) : Feed × Option ProjErr :=
  let folded := routers.foldl
    (fun (acc : Feed × Option ProjErr) r =>
      r.2.foldl (fun acc2 raddr => restartEndpoint env acc2.1 raddr acc2.2) acc)
    (feed, none)
  (folded.1, none)

/-- `feed.repairEndpoints(req)`: like `startEndpoints` but driven by a
client request; afterwards pushes the endpoint table to every data-path
worker.  The source aggregates errors into a local variable and then ends
with a literal `return nil`. -/
def repairEndpoints (env : Env) (feed : Feed) (raddrs : List String) :
    Feed × List UpCall × Option ProjErr :=
  let folded := raddrs.foldl
    (fun (acc : Feed × Option ProjErr) raddr => restartEndpoint env acc.1 raddr acc.2)
    (feed, none)
  let calls := folded.1.kvdata.map UpCall.addEngines
  (folded.1, calls, none)

/-- `feed.processSubscribers(req)`. -/
def processSubscribers (env : Env) (feed : Feed) (req : SubReq) :
    Feed × Option ProjErr :=
  match feedSubscribers req with
  | Except.error e => (feed, some e)
  | Except.ok (evals, routers) =>
    match startEndpoints env feed routers with
    | (feed1, some e) => (feed1, some e)
    | (feed1, none) =>
      let engines2 := evals.foldl
        (fun gmap (p : Nat × String) =>
          let m := (alookup gmap p.2).getD []
          let engine : Engine := ⟨p.1, p.2, (alookup routers p.1).getD []⟩
          ainsert gmap p.2 (ainsert m p.1 engine))
        feed1.engines
      ({ feed1 with engines := engines2 }, none)

/-- `feed.cleanupBucket(bucketn, enginesOk)`: drop the three timestamp
sets, optionally the engines, close and drop the feeder and the data-path
worker. -/
def cleanupBucket (feed : Feed) (bucketn : String) (enginesOk : Bool) : Feed :=
  { feed with
    engines := if enginesOk then aerase feed.engines bucketn else feed.engines
    reqTss := aerase feed.reqTss bucketn
    actTss := aerase feed.actTss bucketn
    rollTss := aerase feed.rollTss bucketn
    feeders := feed.feeders.filter (fun b => decide (b ≠ bucketn))
    kvdata := feed.kvdata.filter (fun b => decide (b ≠ bucketn)) }

/-- `feed.bucketFeed(opaque, stop, start, reqTs)`: check failover-log
details, open the upstream feeder when the bucket has none, then issue
`EndVbStreams` / `StartVbStreams`.  Returns the upstream calls issued and
the error, mapping every collaborator failure the way the source does. -/
def bucketFeed (env : Env) (feed : Feed) (opq : Nat) (stop strt : Bool)
    (reqTs : TsVbuuid) : List UpCall × Option ProjErr :=
  let pooln := reqTs.pool
  let bucketn := reqTs.bucket
  let vbnos := reqTs.getVbnos
  if !(env.bucketDetails pooln bucketn vbnos) then ([], some ProjErr.feeder)
  else
    let feederErr := if bucketn ∈ feed.feeders then none else env.openFeed pooln bucketn
    match feederErr with
    | some e => ([], some e)
    | none =>
      if stop then
        ([UpCall.endVb opq reqTs],
          if env.endStreamsOk opq reqTs then none else some ProjErr.feeder)
      else if strt then
        ([UpCall.startVb opq reqTs],
          if env.startStreamsOk opq reqTs then none else some ProjErr.feeder)
      else ([], none)

/-- Result actions of the feedback callback: the strings `"skip"`,
`"done"`, `"ok"` of the source. -/
inductive FbAction
  | skip
  | done
  | ok
deriving DecidableEq, Repr

/-- The select loop of `feed.waitOnFeedback`: `fuel` is the number of
messages the run may dequeue before its deadline fires (the deadline also
fires when the queue is exhausted, since no further message arrives in the
modelled run).  Returns the callback state, whether the deadline fired,
the unconsumed queue and the held (skipped) messages in arrival order. -/
def waitLoop {σ : Type} (callb : σ → GoVal → σ × FbAction) :
    Nat → List GoVal → σ → List GoVal → σ × Bool × List GoVal × List GoVal
  | 0, queue, s, held => (s, true, queue, held)
  | _ + 1, [], s, held => (s, true, [], held)
  | n + 1, msg :: rest, s, held =>
    match callb s msg with
    | (s2, FbAction.skip) => waitLoop callb n rest s2 (held ++ [msg])
    | (s2, FbAction.done) => (s2, false, rest, held)
    | (s2, FbAction.ok) => waitLoop callb n rest s2 held

/-- `feed.waitOnFeedback(timeout, callb)`: run the loop, then re-populate
the held messages - the source sends `[]interface\x7b\x7d\x7bmsg\x7d`, wrapping each
already-sliced message in a fresh one-element slice, so each held message
re-enters the channel as a `slice` value. -/
def waitOnFeedback {σ : Type} (callb : σ → GoVal → σ × FbAction) (fuel : Nat)
    (s0 : σ) (backch : List GoVal) : σ × Bool × List GoVal :=
  let r := waitLoop callb fuel backch s0 []
  (r.1, r.2.1, r.2.2.1 ++ r.2.2.2.map (fun m => GoVal.slice [m]))

/-- Modelled from the spec: `c.RemoveUint16` removes a partition from the
remaining set ("Remove the partition from `remaining`"); the helper is
outside the given sources. -/
def removeUint16 (vbno : Nat) (vbnos : List Nat) : List Nat :=
  vbnos.filter (fun v => decide (v ≠ vbno))

/-- Callback state of `waitStreamRequests`. -/
structure ReqWaitSt where
  rollTs : TsVbuuid
  failTs : TsVbuuid
  actTs : TsVbuuid
  vbnos : List Nat
  err : Option ProjErr
deriving Repr

/-- The classification callback of `waitStreamRequests`: accept a
`controlStreamRequest` matching (bucket, opaque, partition in the expected
timestamp), classify by status, remove the partition from the remaining
set. -/
def reqCallb (opq : Nat) (bucketn : String) (ts : TsVbuuid) (s : ReqWaitSt)
    (msg : GoVal) : ReqWaitSt × FbAction :=
  match msg with
  | GoVal.ctrl (CtrlVal.streamRequest bucket o status vbno vbuuid seqno) =>
    if bucket = bucketn ∧ o = opq ∧ ts.hasVbno vbno then
      let s2 :=
        match status with
        | McdStatus.success => { s with actTs := s.actTs.append vbno seqno vbuuid 0 0 }
        | McdStatus.rollback => { s with rollTs := s.rollTs.append vbno seqno vbuuid 0 0 }
        | McdStatus.notMyVbucket =>
          { s with failTs := s.failTs.append vbno seqno vbuuid 0 0
                   err := some ProjErr.notMyVbucket }
        | McdStatus.other _ =>
          { s with failTs := s.failTs.append vbno seqno vbuuid 0 0
                   err := some ProjErr.streamRequest }
      let s3 := { s2 with vbnos := removeUint16 vbno s2.vbnos }
      if s3.vbnos.isEmpty then (s3, FbAction.done) else (s3, FbAction.ok)
    else (s, FbAction.skip)
  | _ => (s, FbAction.skip)

/-- `feed.waitStreamRequests(opaque, pooln, bucketn, ts)`: returns
(rollTs, failTs, actTs, error) plus the back channel as the run leaves
it.  An empty expected set returns immediately. -/
def waitStreamRequests (env : Env) (opq : Nat) (pooln bucketn : String)
    (ts : TsVbuuid) (backch : List GoVal) :
    TsVbuuid × TsVbuuid × TsVbuuid × Option ProjErr × List GoVal :=
  let vbnos := ts.getVbnos
  let rollTs : TsVbuuid := ⟨ts.pool, ts.bucket, []⟩
  let failTs : TsVbuuid := ⟨ts.pool, ts.bucket, []⟩
  let actTs : TsVbuuid := ⟨ts.pool, ts.bucket, []⟩
  if vbnos.isEmpty then (rollTs, failTs, actTs, none, backch)
  else
    let s0 : ReqWaitSt := ⟨rollTs, failTs, actTs, vbnos, none⟩
    let r := waitOnFeedback (reqCallb opq bucketn ts) (env.cut bucketn) s0 backch
    let s := r.1
    let err :=
      match s.err with
      | some e => some e
      | none => if r.2.1 then some ProjErr.responseTimeout else none
    (s.rollTs, s.failTs, s.actTs, err, r.2.2)

/-- Callback state of `waitStreamEnds`. -/
structure EndWaitSt where
  endTs : TsVbuuid
  failTs : TsVbuuid
  vbnos : List Nat
  err : Option ProjErr
deriving Repr

/-- The classification callback of `waitStreamEnds`. -/
def endCallb (opq : Nat) (bucketn : String) (ts : TsVbuuid) (s : EndWaitSt)
    (msg : GoVal) : EndWaitSt × FbAction :=
  match msg with
  | GoVal.ctrl (CtrlVal.streamEnd bucket o status vbno) =>
    if bucket = bucketn ∧ o = opq ∧ ts.hasVbno vbno then
      let s2 :=
        match status with
        | McdStatus.success => { s with endTs := s.endTs.append vbno 0 0 0 0 }
        | McdStatus.notMyVbucket =>
          { s with failTs := s.failTs.append vbno 0 0 0 0
                   err := some ProjErr.notMyVbucket }
        | _ =>
          { s with failTs := s.failTs.append vbno 0 0 0 0
                   err := some ProjErr.streamEnd }
      let s3 := { s2 with vbnos := removeUint16 vbno s2.vbnos }
      if s3.vbnos.isEmpty then (s3, FbAction.done) else (s3, FbAction.ok)
    else (s, FbAction.skip)
  | _ => (s, FbAction.skip)

/-- `feed.waitStreamEnds(opaque, bucketn, ts)`. -/
def waitStreamEnds (env : Env) (opq : Nat) (bucketn : String) (ts : TsVbuuid)
    (backch : List GoVal) :
    TsVbuuid × TsVbuuid × Option ProjErr × List GoVal :=
  let vbnos := ts.getVbnos
  let endTs : TsVbuuid := ⟨ts.pool, ts.bucket, []⟩
  let failTs : TsVbuuid := ⟨ts.pool, ts.bucket, []⟩
  if vbnos.isEmpty then (endTs, failTs, none, backch)
  else
    let s0 : EndWaitSt := ⟨endTs, failTs, vbnos, none⟩
    let r := waitOnFeedback (endCallb opq bucketn ts) (env.cut bucketn) s0 backch
    let s := r.1
    let err :=
      match s.err with
      | some e => some e
      | none => if r.2.1 then some ProjErr.responseTimeout else none
    (s.endTs, s.failTs, err, r.2.2)

/-- The common tail of the start/restart/add per-bucket processing, after
the upstream request went out: run the stream-request reconciler, merge
its rollback and active outputs into the bucket's sets, and drop every
answered partition from the outstanding set. -/
def streamBookkeeping (env : Env) (opq : Nat) (pooln bucketn : String)
    (ts : TsVbuuid) (rollTs? actTs? : Option TsVbuuid) (reqTs : TsVbuuid)
    (feed : Feed) : Feed × Option ProjErr :=
  let w := waitStreamRequests env opq pooln bucketn ts feed.backch
  let r := w.1
  let f := w.2.1
  let a := w.2.2.1
  let e := w.2.2.2.1
  let backch2 := w.2.2.2.2
  let feed := { feed with
    rollTss := ainsert feed.rollTss bucketn (TsVbuuid.unionO rollTs? r)
    actTss := ainsert feed.actTss bucketn (TsVbuuid.unionO actTs? a) }
  let reqTs := reqTs.filterByVbuckets r.getVbnos
  let reqTs := reqTs.filterByVbuckets a.getVbnos
  let reqTs := reqTs.filterByVbuckets f.getVbnos
  ({ feed with reqTss := ainsert feed.reqTss bucketn reqTs, backch := backch2 }, e)

/-- One iteration of the bucket loop of `feed.start`. -/
def startOneBucket (env : Env) (opq : Nat) (feed : Feed) (ts0 : TsVbuuid) :
    Feed × List UpCall × Option ProjErr :=
  let pooln := ts0.pool
  let bucketn := ts0.bucket
  match env.localVbuckets pooln bucketn with
  | none => (cleanupBucket feed bucketn false, [], some ProjErr.clusterInfo)
  | some vbnos =>
    let ts := ts0.selectByVbuckets vbnos
    let actTs? := alookup feed.actTss bucketn
    let ts :=
      match actTs? with
      | some actTs => ts.filterByVbuckets actTs.getVbnos
      | none => ts
    let rollTs? := (alookup feed.rollTss bucketn).map
      (fun rollTs => rollTs.filterByVbuckets ts.getVbnos)
    let reqTs? := alookup feed.reqTss bucketn
    let ts :=
      match reqTs? with
      | some reqTs => ts.filterByVbuckets reqTs.getVbnos
      | none => ts
    let reqTs := ts.union reqTs?
    match bucketFeed env feed opq false true ts with
    | (calls, some e) => (cleanupBucket feed bucketn false, calls, some e)
    | (calls, none) =>
      let feed := { feed with feeders := sinsert feed.feeders bucketn }
      let step2 :=
        if bucketn ∈ feed.kvdata then (feed, calls ++ [UpCall.updateTs bucketn ts])
        else ({ feed with kvdata := sinsert feed.kvdata bucketn }, calls)
      let r := streamBookkeeping env opq pooln bucketn ts rollTs? actTs? reqTs step2.1
      (r.1, step2.2, r.2)

/-- One iteration of the bucket loop of `feed.restartVbuckets`.  It
differs from `startOneBucket` in issuing `UpdateTs` to an existing
data-path worker before the upstream call, and in computing the new
outstanding base as `ts.Union(ts)` - the source unions the filtered
timestamp with itself, not with the bucket's previous `reqTs`. -/
def restartOneBucket (env : Env) (opq : Nat) (feed : Feed) (ts0 : TsVbuuid) :
    Feed × List UpCall × Option ProjErr :=
  let pooln := ts0.pool
  let bucketn := ts0.bucket
  match env.localVbuckets pooln bucketn with
  | none => (cleanupBucket feed bucketn false, [], some ProjErr.clusterInfo)
  | some vbnos =>
    let ts := ts0.selectByVbuckets vbnos
    let actTs? := alookup feed.actTss bucketn
    let ts :=
      match actTs? with
      | some actTs => ts.filterByVbuckets actTs.getVbnos
      | none => ts
    let rollTs? := (alookup feed.rollTss bucketn).map
      (fun rollTs => rollTs.filterByVbuckets ts.getVbnos)
    let reqTs? := alookup feed.reqTss bucketn
    let ts :=
      match reqTs? with
      | some reqTs => ts.filterByVbuckets reqTs.getVbnos
      | none => ts
    let reqTs := ts.union (some ts)
    let calls0 := if bucketn ∈ feed.kvdata then [UpCall.updateTs bucketn ts] else []
    match bucketFeed env feed opq false true ts with
    | (calls, some e) => (cleanupBucket feed bucketn false, calls0 ++ calls, some e)
    | (calls, none) =>
      let feed := { feed with feeders := sinsert feed.feeders bucketn }
      let feed :=
        if bucketn ∈ feed.kvdata then feed
        else { feed with kvdata := sinsert feed.kvdata bucketn }
      let r := streamBookkeeping env opq pooln bucketn ts rollTs? actTs? reqTs feed
      (r.1, calls0 ++ calls, r.2)

/-- One iteration of the bucket loop of `feed.addBuckets`.  It differs
from `startOneBucket` in two places: the result of filtering the request
timestamp by the bucket's active partitions is discarded (the source drops
the return value of `FilterByVbuckets`), and the new outstanding base is
`ts.Union(ts)`. -/
def addOneBucket (env : Env) (opq : Nat) (feed : Feed) (ts0 : TsVbuuid) :
    Feed × List UpCall × Option ProjErr :=
  let pooln := ts0.pool
  let bucketn := ts0.bucket
  match env.localVbuckets pooln bucketn with
  | none => (cleanupBucket feed bucketn false, [], some ProjErr.clusterInfo)
  | some vbnos =>
    let ts := ts0.selectByVbuckets vbnos
    let actTs? := alookup feed.actTss bucketn
    -- the source computes ts.FilterByVbuckets(actTs.GetVbnos()) here and
    -- discards the result, so ts keeps its active partitions
    let rollTs? := (alookup feed.rollTss bucketn).map
      (fun rollTs => rollTs.filterByVbuckets ts.getVbnos)
    let reqTs? := alookup feed.reqTss bucketn
    let ts :=
      match reqTs? with
      | some reqTs => ts.filterByVbuckets reqTs.getVbnos
      | none => ts
    let reqTs := ts.union (some ts)
    match bucketFeed env feed opq false true ts with
    | (calls, some e) => (cleanupBucket feed bucketn false, calls, some e)
    | (calls, none) =>
      let feed := { feed with feeders := sinsert feed.feeders bucketn }
      let step2 :=
        if bucketn ∈ feed.kvdata then (feed, calls ++ [UpCall.updateTs bucketn ts])
        else ({ feed with kvdata := sinsert feed.kvdata bucketn }, calls)
      let r := streamBookkeeping env opq pooln bucketn ts rollTs? actTs? reqTs step2.1
      (r.1, step2.2, r.2)

/-- One iteration of the bucket loop of `feed.shutdownVbuckets`: require
all three timestamp sets, issue `EndVbStreams`, run the stream-end
reconciler and drop the confirmed partitions from all three sets.  On a
topology or feeder error the bucket is deliberately not cleaned. -/
def shutdownOneBucket (env : Env) (opq : Nat) (feed : Feed) (ts0 : TsVbuuid) :
    Feed × List UpCall × Option ProjErr :=
  let pooln := ts0.pool
  let bucketn := ts0.bucket
  match env.localVbuckets pooln bucketn with
  | none => (feed, [], some ProjErr.clusterInfo)
  | some vbnos =>
    let ts := ts0.selectByVbuckets vbnos
    match alookup feed.actTss bucketn, alookup feed.rollTss bucketn,
        alookup feed.reqTss bucketn with
    | some actTs, some rollTs, some reqTs =>
      match bucketFeed env feed opq true false ts with
      | (calls, some e) => (feed, calls, some e)
      | (calls, none) =>
        let w := waitStreamEnds env opq bucketn ts feed.backch
        let endTs := w.1
        let e := w.2.2.1
        let backch2 := w.2.2.2
        let vbnos2 := endTs.getVbnos
        let feed := { feed with
          actTss := ainsert feed.actTss bucketn (actTs.filterByVbuckets vbnos2)
          reqTss := ainsert feed.reqTss bucketn (reqTs.filterByVbuckets vbnos2)
          rollTss := ainsert feed.rollTss bucketn (rollTs.filterByVbuckets vbnos2)
          backch := backch2 }
        (feed, calls, e)
    | _, _, _ => (feed, [], some ProjErr.invalidBucket)

/-- Accumulate one bucket iteration into the loop state: concatenate the
upstream calls and let the last error win. -/
def accumBucket (acc : Feed × List UpCall × Option ProjErr)
    (r : Feed × List UpCall × Option ProjErr) :
    Feed × List UpCall × Option ProjErr :=
  (r.1, acc.2.1 ++ r.2.1,
    match r.2.2 with
    | some e => some e
    | none => acc.2.2)

/-- `feed.start(req)`. -/
def start (env : Env) (feed : Feed) (req : MutationTopicRequest) (opq : Nat) :
    Feed × List UpCall × Option ProjErr :=
  let feed := { feed with endpointType := req.endpointType }
  match processSubscribers env feed req.sub with
  | (feed1, some e) => (feed1, [], some e)
  | (feed1, none) =>
    req.reqTimestamps.foldl
      (fun acc ts0 => accumBucket acc (startOneBucket env opq acc.1 ts0))
      (feed1, [], none)

/-- `feed.restartVbuckets(req)`: repair all current endpoints first, then
run the bucket loop. -/
def restartVbuckets (env : Env) (feed : Feed) (req : RestartVbucketsRequest)
    (opq : Nat) : Feed × List UpCall × Option ProjErr :=
  let rep := repairEndpoints env feed (endpointRaddrs feed)
  req.restartTimestamps.foldl
    (fun acc ts0 => accumBucket acc (restartOneBucket env opq acc.1 ts0))
    (rep.1, rep.2.1, none)

/-- `feed.shutdownVbuckets(req)`. -/
def shutdownVbuckets (env : Env) (feed : Feed) (req : ShutdownVbucketsRequest)
    (opq : Nat) : Feed × List UpCall × Option ProjErr :=
  req.shutdownTimestamps.foldl
    (fun acc ts0 => accumBucket acc (shutdownOneBucket env opq acc.1 ts0))
    (feed, [], none)

/-- `feed.addBuckets(req)`. -/
def addBuckets (env : Env) (feed : Feed) (req : AddBucketsRequest) (opq : Nat) :
    Feed × List UpCall × Option ProjErr :=
  match processSubscribers env feed req.sub with
  | (feed1, some e) => (feed1, [], some e)
  | (feed1, none) =>
    req.reqTimestamps.foldl
      (fun acc ts0 => accumBucket acc (addOneBucket env opq acc.1 ts0))
      (feed1, [], none)

/-- `feed.delBuckets(req)`. -/
def delBuckets (feed : Feed) (req : DelBucketsRequest) :
    Feed × List UpCall × Option ProjErr :=
  (req.buckets.foldl (fun f b => cleanupBucket f b true) feed, [], none)

/-- `feed.addInstances(req)`. -/
def addInstances (env : Env) (feed : Feed) (req : AddInstancesRequest) :
    Feed × List UpCall × Option ProjErr :=
  match processSubscribers env feed req.sub with
  | (feed1, some e) => (feed1, [], some e)
  | (feed1, none) =>
    feed1.engines.foldl
      (fun (acc : Feed × List UpCall × Option ProjErr) p =>
        if p.1 ∈ feed1.kvdata then
          (acc.1, acc.2.1 ++ [UpCall.addEngines p.1], acc.2.2)
        else (acc.1, acc.2.1, some ProjErr.invalidBucket))
      (feed1, [], none)

/-- `feed.delInstances(req)`: split every bucket's engines into deleted
and kept, post `DeleteEngines` per bucket with a data path, replace the
engine table with the kept part. -/
def delInstances (feed : Feed) (req : DelInstancesRequest) :
    Feed × List UpCall × Option ProjErr :=
  let split := feed.engines.map
    (fun p => (p.1, p.2.partition (fun q => q.1 ∈ req.instanceIds)))
  let bucknIds := split.map (fun p => (p.1, p.2.1.map Prod.fst))
  let fengines := split.map (fun p => (p.1, p.2.2))
  let folded := bucknIds.foldl
    (fun (acc : List UpCall × Option ProjErr) p =>
      if p.1 ∈ feed.kvdata then (acc.1 ++ [UpCall.deleteEngines p.1 p.2], acc.2)
      else (acc.1, some ProjErr.invalidBucket))
    ([], none)
  ({ feed with engines := fengines }, folded.1, folded.2)

/-- The `streamEnd` treatment of one per-bucket map in `genServer`: look
the bucket's timestamp up, filter the partition out of it and store it
back.  A nil (absent) timestamp stays absent. -/
def filterBucketTs (m : List (String × TsVbuuid)) (bucket : String)
    (vbno : Nat) : List (String × TsVbuuid) :=
  match alookup m bucket with
  | some ts => ainsert m bucket (ts.filterByVbuckets [vbno])
  | none => m

/-- One back-channel turn of `genServer` (the `case msg = <-feed.backch`
arm): classify the message's first element and update the book-keeping.
A nil timestamp read from a map is identified with an absent entry. -/
def drainOne (feed : Feed) : Feed :=
  match feed.backch with
  | [] => feed
  | msg :: rest =>
    let feed := { feed with backch := rest }
    match msg with
    | GoVal.ctrl (CtrlVal.streamRequest bucket _o status vbno _vbuuid seqno) =>
      match alookup feed.reqTss bucket with
      | none => feed
      | some reqTs =>
        match reqTs.get vbno with
        | none => feed
        | some e =>
          let feed := { feed with
            reqTss := ainsert feed.reqTss bucket (reqTs.filterByVbuckets [vbno]) }
          match status with
          | McdStatus.rollback =>
            match alookup feed.rollTss bucket with
            | some rollTs =>
              let rollTs2 := rollTs.append vbno seqno e.vbuuid e.sStart e.sEnd
              { feed with rollTss := ainsert feed.rollTss bucket rollTs2 }
            | none => feed
          | McdStatus.success =>
            match alookup feed.actTss bucket with
            | some actTs =>
              let actTs2 := actTs.append vbno e.seqno e.vbuuid e.sStart e.sEnd
              { feed with actTss := ainsert feed.actTss bucket actTs2 }
            | none => feed
          | _ => feed
    | GoVal.ctrl (CtrlVal.streamEnd bucket _o _status vbno) =>
      { feed with
        reqTss := filterBucketTs feed.reqTss bucket vbno
        actTss := filterBucketTs feed.actTss bucket vbno
        rollTss := filterBucketTs feed.rollTss bucket vbno }
    | GoVal.ctrl (CtrlVal.finKVData bucket) =>
      match alookup feed.actTss bucket with
      | some actTs =>
        if actTs.len = 0 then cleanupBucket feed bucket false else feed
      | none => feed
    | _ => feed

/-- The feed state as `NewFeed` creates it. -/
def initFeed (topic : String) : Feed :=
  { topic := topic
    endpointType := ""
    reqTss := []
    actTss := []
    rollTss := []
    feeders := []
    kvdata := []
    engines := []
    endpoints := []
    backch := [] }

/-- The client commands of the request surface (the `fCmd*` dispatch).
`GetTopicResponse` and `GetStatistics` read the state without modifying
it and are represented by `query`. -/
inductive Cmd
  | startTopic (req : MutationTopicRequest)
  | restart (req : RestartVbucketsRequest)
  | shutdownVb (req : ShutdownVbucketsRequest)
  | addB (req : AddBucketsRequest)
  | delB (req : DelBucketsRequest)
  | addInst (req : AddInstancesRequest)
  | delInst (req : DelInstancesRequest)
  | repair (req : RepairEndpointsRequest)
  | shutdownFeed
  | query

/-- State transition of one handled command. -/
def runCmd (env : Env) (opq : Nat) (c : Cmd) (feed : Feed) : Feed :=
  match c with
  | Cmd.startTopic req => (start env feed req opq).1
  | Cmd.restart req => (restartVbuckets env feed req opq).1
  | Cmd.shutdownVb req => (shutdownVbuckets env feed req opq).1
  | Cmd.addB req => (addBuckets env feed req opq).1
  | Cmd.delB req => (delBuckets feed req).1
  | Cmd.addInst req => (addInstances env feed req).1
  | Cmd.delInst req => (delInstances feed req).1
  | Cmd.repair req => (repairEndpoints env feed req.endpoints).1
  | Cmd.shutdownFeed => { feed with kvdata := [] }
  | Cmd.query => feed

/-- One actor turn, or one asynchronous producer enqueue: a handled
command, one drained back-channel message, a `Post*` enqueue from the data
path, or the periodic tick (which only logs). -/
inductive Step
  | cmd (env : Env) (opq : Nat) (c : Cmd)
  | drain
  | post (m : CtrlVal)
  | tick

/-- The transition function of the feed actor. -/
def stepFn (feed : Feed) : Step → Feed
  | Step.cmd env opq c => runCmd env opq c feed
  | Step.drain => drainOne feed
  | Step.post m => { feed with backch := feed.backch ++ [GoVal.ctrl m] }
  | Step.tick => feed

/-- Partition numbers of an optional (possibly absent) timestamp. -/
def ovbnos : Option TsVbuuid → List Nat
  | none => []
  | some ts => ts.getVbnos

/-- A well-formed request timestamp: an association proper, no partition
listed twice (the spec's data model: "an ordered association from
partition number to ..."). -/
def tsWF (ts : TsVbuuid) : Prop :=
  ts.getVbnos.Nodup

/-- The correlation keys (bucket, opaque, partition) of the
`controlStreamRequest` messages currently on the back channel. -/
def backchKeys (backch : List GoVal) : List (String × Nat × Nat) :=
  backch.filterMap
    (fun m =>
      match m with
      | GoVal.ctrl (CtrlVal.streamRequest b o _ v _ _) => some (b, o, v)
      | _ => none)

/-- A well-behaved back channel: the upstream acknowledges each
(bucket, opaque, partition) stream request at most once, so no two
stream-request results on the channel share a correlation key. -/
def backchOK (backch : List GoVal) : Prop :=
  (backchKeys backch).Nodup

/-- Sequential side condition for an `AddBuckets` bucket list: each
request timestamp is duplicate-free and its partitions are disjoint from
the bucket's active partitions at the moment that bucket is processed
(the source drops the filter that would enforce this). -/
def addSeqOK (env : Env) (opq : Nat) : Feed → List TsVbuuid → Prop
  | _, [] => True
  | feed, ts0 :: rest =>
    tsWF ts0 ∧
    (∀ v ∈ ts0.getVbnos, v ∉ ovbnos (alookup feed.actTss ts0.bucket)) ∧
    addSeqOK env opq (addOneBucket env opq feed ts0).1 rest

/-- Side conditions under which a turn is taken in the runs the invariant
claim covers: requests carry well-formed timestamps, and at every
stream-opening command the back channel is well-behaved (plus, for
`AddBuckets`, the sequential disjointness the source fails to enforce). -/
def stepOK (feed : Feed) : Step → Prop
  | Step.cmd env opq c =>
    match c with
    | Cmd.startTopic req =>
      (∀ ts0 ∈ req.reqTimestamps, tsWF ts0) ∧ backchOK feed.backch
    | Cmd.restart req =>
      (∀ ts0 ∈ req.restartTimestamps, tsWF ts0) ∧ backchOK feed.backch
    | Cmd.addB req =>
      backchOK feed.backch ∧
      (match processSubscribers env feed req.sub with
       | (feed1, none) => addSeqOK env opq feed1 req.reqTimestamps
       | (_, some _) => True)
    | _ => True
  | _ => True

/-- States reachable from a fresh feed through arbitrary turns. -/
inductive ReachableAny (topic : String) : Feed → Prop
  | init : ReachableAny topic (initFeed topic)
  | step {feed : Feed} (s : Step) :
      ReachableAny topic feed → ReachableAny topic (stepFn feed s)

/-- States reachable from a fresh feed through turns satisfying the side
conditions of `stepOK`. -/
inductive ReachableGood (topic : String) : Feed → Prop
  | init : ReachableGood topic (initFeed topic)
  | step {feed : Feed} (s : Step) :
      ReachableGood topic feed → stepOK feed s → ReachableGood topic (stepFn feed s)

/-- The three timestamp sets of one bucket are pairwise disjoint and the
outstanding set holds no partition twice. -/
def bucketDisjoint (feed : Feed) (b : String) : Prop :=
  (ovbnos (alookup feed.reqTss b)).Nodup ∧
  (∀ v ∈ ovbnos (alookup feed.reqTss b), v ∉ ovbnos (alookup feed.actTss b)) ∧
  (∀ v ∈ ovbnos (alookup feed.reqTss b), v ∉ ovbnos (alookup feed.rollTss b)) ∧
  (∀ v ∈ ovbnos (alookup feed.actTss b), v ∉ ovbnos (alookup feed.rollTss b))

/-- The invariant claimed for every bucket. -/
def FeedDisjoint (feed : Feed) : Prop :=
  ∀ b, bucketDisjoint feed b

/-- The inductive strengthening: disjointness plus the fact that the three
per-bucket maps always share a domain (`start` and its relatives install
or erase the three sets together). -/
def bucketOK (feed : Feed) (b : String) : Prop :=
  ((alookup feed.actTss b).isSome = (alookup feed.reqTss b).isSome) ∧
  ((alookup feed.rollTss b).isSome = (alookup feed.reqTss b).isSome) ∧
  bucketDisjoint feed b

/-- Strengthened whole-feed invariant. -/
def FeedInv (feed : Feed) : Prop :=
  ∀ b, bucketOK feed b

/-! ### Basic lemmas about the association maps and timestamp sets -/

theorem alookup_ainsert_self {κ α : Type} [DecidableEq κ]
    (m : List (κ × α)) (k : κ) (v : α) : alookup (ainsert m k v) k = some v := by
  simp [ainsert, alookup]

theorem alookup_aerase {κ α : Type} [DecidableEq κ]
    (m : List (κ × α)) (k k' : κ) (h : k' ≠ k) :
    alookup (aerase m k) k' = alookup m k' := by
  induction m with
  | nil => rfl
  | cons p rest ih =>
    show alookup (if p.1 = k then aerase rest k else p :: aerase rest k) k' =
      alookup (p :: rest) k'
    by_cases h1 : p.1 = k
    · rw [if_pos h1, ih]
      show alookup rest k' = alookup (p :: rest) k'
      show alookup rest k' = if p.1 = k' then some p.2 else alookup rest k'
      rw [if_neg (fun h2 => h (h2.symm.trans h1))]
    · rw [if_neg h1]
      show (if p.1 = k' then some p.2 else alookup (aerase rest k) k') =
        if p.1 = k' then some p.2 else alookup rest k'
      by_cases h2 : p.1 = k'
      · rw [if_pos h2, if_pos h2]
      · rw [if_neg h2, if_neg h2, ih]

theorem alookup_ainsert_ne {κ α : Type} [DecidableEq κ]
    (m : List (κ × α)) (k k' : κ) (v : α) (h : k' ≠ k) :
    alookup (ainsert m k v) k' = alookup m k' := by
  simp only [ainsert, alookup]
  rw [if_neg (fun h2 => h h2.symm), alookup_aerase m k k' h]

theorem alookup_aerase_self {κ α : Type} [DecidableEq κ]
    (m : List (κ × α)) (k : κ) : alookup (aerase m k) k = none := by
  induction m with
  | nil => rfl
  | cons p rest ih =>
    by_cases h1 : p.1 = k
    · simpa [aerase, h1] using ih
    · simpa [aerase, h1, alookup] using ih

namespace TsVbuuid

theorem hasVbno_iff {ts : TsVbuuid} {v : Nat} :
    ts.hasVbno v = true ↔ v ∈ ts.getVbnos := by
  simp [hasVbno]

theorem getVbnos_filter (ts : TsVbuuid) (l : List Nat) :
    (ts.filterByVbuckets l).getVbnos = ts.getVbnos.filter (fun v => decide (v ∉ l)) := by
  simp only [filterByVbuckets, getVbnos]
  induction ts.entries with
  | nil => rfl
  | cons p rest ih =>
    by_cases h : p.1 ∈ l <;> simpa [h] using ih

theorem mem_getVbnos_filter {ts : TsVbuuid} {l : List Nat} {v : Nat} :
    v ∈ (ts.filterByVbuckets l).getVbnos ↔ v ∈ ts.getVbnos ∧ v ∉ l := by
  rw [getVbnos_filter]
  simp [List.mem_filter]

theorem getVbnos_select (ts : TsVbuuid) (l : List Nat) :
    (ts.selectByVbuckets l).getVbnos = ts.getVbnos.filter (fun v => decide (v ∈ l)) := by
  simp only [selectByVbuckets, getVbnos]
  induction ts.entries with
  | nil => rfl
  | cons p rest ih =>
    by_cases h : p.1 ∈ l <;> simpa [h] using ih

theorem mem_getVbnos_select {ts : TsVbuuid} {l : List Nat} {v : Nat} :
    v ∈ (ts.selectByVbuckets l).getVbnos ↔ v ∈ ts.getVbnos ∧ v ∈ l := by
  rw [getVbnos_select]
  simp [List.mem_filter]

theorem nodup_filter {ts : TsVbuuid} (l : List Nat) (h : ts.getVbnos.Nodup) :
    (ts.filterByVbuckets l).getVbnos.Nodup := by
  rw [getVbnos_filter]
  exact h.filter _

theorem nodup_select {ts : TsVbuuid} (l : List Nat) (h : ts.getVbnos.Nodup) :
    (ts.selectByVbuckets l).getVbnos.Nodup := by
  rw [getVbnos_select]
  exact h.filter _

theorem mem_getVbnos_union {x : TsVbuuid} {y? : Option TsVbuuid} {v : Nat} :
    v ∈ (x.union y?).getVbnos ↔ v ∈ x.getVbnos ∨ v ∈ ovbnos y? := by
  cases y? with
  | none => simp [union, getVbnos, ovbnos]
  | some y =>
    simp only [union, getVbnos, ovbnos, List.map_append, List.mem_append]
    constructor
    · rintro (h | h)
      · exact Or.inl h
      · obtain ⟨p, hp, rfl⟩ := List.mem_map.mp h
        obtain ⟨hpy, _⟩ := List.mem_filter.mp hp
        exact Or.inr (List.mem_map.mpr ⟨p, hpy, rfl⟩)
    · rintro (h | h)
      · exact Or.inl h
      · by_cases hx : v ∈ x.getVbnos
        · exact Or.inl hx
        · obtain ⟨p, hpy, rfl⟩ := List.mem_map.mp h
          refine Or.inr (List.mem_map.mpr ⟨p, List.mem_filter.mpr ⟨hpy, ?_⟩, rfl⟩)
          have hb : ¬ (x.hasVbno p.1 = true) := by
            rw [hasVbno_iff]
            exact hx
          simp only [Bool.not_eq_true] at hb
          simp [hb]

theorem nodup_union {x : TsVbuuid} {y? : Option TsVbuuid}
    (hx : x.getVbnos.Nodup) (hy : (ovbnos y?).Nodup) :
    (x.union y?).getVbnos.Nodup := by
  cases y? with
  | none => simpa [union, getVbnos] using hx
  | some y =>
    simp only [union, getVbnos, List.map_append]
    rw [List.nodup_append]
    refine ⟨hx, ?_, ?_⟩
    · exact ((List.filter_sublist y.entries).map Prod.fst).nodup hy
    · intro v hv hv2
      obtain ⟨p, hp, rfl⟩ := List.mem_map.mp hv2
      obtain ⟨_, hfilt⟩ := List.mem_filter.mp hp
      have hb : x.hasVbno p.1 = false := by simpa using hfilt
      exact absurd (hasVbno_iff.mpr hv) (by simp [hb])

theorem mem_getVbnos_unionO {x? : Option TsVbuuid} {y : TsVbuuid} {v : Nat} :
    v ∈ (TsVbuuid.unionO x? y).getVbnos ↔ v ∈ ovbnos x? ∨ v ∈ y.getVbnos := by
  cases x? with
  | none => simp [unionO, ovbnos]
  | some x =>
    simp only [unionO, ovbnos]
    rw [mem_getVbnos_union]
    simp [ovbnos]

theorem getVbnos_append (ts : TsVbuuid) (v s u a b : Nat) :
    (ts.append v s u a b).getVbnos = ts.getVbnos ++ [v] := by
  simp [append, getVbnos]

theorem get_mem {ts : TsVbuuid} {v : Nat} {e : TsEntry} (h : ts.get v = some e) :
    v ∈ ts.getVbnos := by
  simp only [get, Option.map_eq_some'] at h
  obtain ⟨p, hp, _⟩ := h
  have hmem := List.mem_of_find?_eq_some hp
  have hpred := List.find?_some hp
  simp only [decide_eq_true_eq] at hpred
  exact hpred ▸ List.mem_map.mpr ⟨p, hmem, rfl⟩

end TsVbuuid

theorem ovbnos_some (ts : TsVbuuid) : ovbnos (some ts) = ts.getVbnos := rfl

/-! ### Lemmas about the reconciler loop -/

theorem waitLoop_inv {σ : Type} (callb : σ → GoVal → σ × FbAction)
    (P : σ → List GoVal → Prop)
    (hstep : ∀ s msg rest, P s (msg :: rest) → P (callb s msg).1 rest) :
    ∀ (fuel : Nat) (queue : List GoVal) (s : σ) (held : List GoVal),
      P s queue →
      P (waitLoop callb fuel queue s held).1
        (waitLoop callb fuel queue s held).2.2.1 := by
  intro fuel
  induction fuel with
  | zero =>
    intro queue s held h
    exact h
  | succ n ih =>
    intro queue s held h
    cases queue with
    | nil => exact h
    | cons msg rest =>
      have h2 := hstep s msg rest h
      cases hc : callb s msg with
      | mk s2 act =>
        rw [hc] at h2
        cases act with
        | skip =>
          simp only [waitLoop, hc]
          exact ih rest s2 (held ++ [msg]) h2
        | done =>
          simp only [waitLoop, hc]
          exact h2
        | ok =>
          simp only [waitLoop, hc]
          exact ih rest s2 held h2

theorem waitLoop_suffix {σ : Type} (callb : σ → GoVal → σ × FbAction) :
    ∀ (fuel : Nat) (queue : List GoVal) (s : σ) (held : List GoVal),
      (waitLoop callb fuel queue s held).2.2.1 <:+ queue := by
  intro fuel
  induction fuel with
  | zero =>
    intro queue s held
    exact List.suffix_refl queue
  | succ n ih =>
    intro queue s held
    cases queue with
    | nil => exact List.suffix_refl []
    | cons msg rest =>
      cases hc : callb s msg with
      | mk s2 act =>
        have hsub : rest <:+ msg :: rest := ⟨[msg], rfl⟩
        cases act with
        | skip =>
          simp only [waitLoop, hc]
          exact (ih rest s2 (held ++ [msg])).trans hsub
        | done =>
          simp only [waitLoop, hc]
          exact hsub
        | ok =>
          simp only [waitLoop, hc]
          exact (ih rest s2 held).trans hsub

theorem backchKeys_append (l1 l2 : List GoVal) :
    backchKeys (l1 ++ l2) = backchKeys l1 ++ backchKeys l2 := by
  simp [backchKeys]

theorem backchKeys_wraps (l : List GoVal) :
    backchKeys (l.map (fun m => GoVal.slice [m])) = [] := by
  induction l with
  | nil => rfl
  | cons m rest ih => simp [backchKeys, ih]

theorem backchKeys_sublist {l1 l2 : List GoVal} (h : List.Sublist l1 l2) :
    List.Sublist (backchKeys l1) (backchKeys l2) :=
  h.filterMap _

/-- The partitions of the stream-request results on a queue matching a
given (opaque, bucket) pair and expected timestamp, in arrival order. -/
def matchedVbnos (opq : Nat) (bucketn : String) (ts : TsVbuuid)
    (q : List GoVal) : List Nat :=
  q.filterMap
    (fun m =>
      match m with
      | GoVal.ctrl (CtrlVal.streamRequest b o _ v _ _) =>
        if b = bucketn ∧ o = opq ∧ ts.hasVbno v then some v else none
      | _ => none)

theorem mem_matchedVbnos_keys {opq : Nat} {bucketn : String} {ts : TsVbuuid}
    {q : List GoVal} {v : Nat} (h : v ∈ matchedVbnos opq bucketn ts q) :
    (bucketn, opq, v) ∈ backchKeys q := by
  induction q with
  | nil => exact absurd h (List.not_mem_nil v)
  | cons m rest ih =>
    cases m with
    | ctrl c =>
      cases c with
      | streamRequest b o st v0 vb sq =>
        by_cases hcond : b = bucketn ∧ o = opq ∧ ts.hasVbno v0
        · simp only [matchedVbnos, List.filterMap_cons, if_pos hcond] at h
          simp only [backchKeys, List.filterMap_cons]
          rcases List.mem_cons.mp h with h1 | h1
          · exact List.mem_cons.mpr (Or.inl (by rw [hcond.1, hcond.2.1, h1]))
          · exact List.mem_cons.mpr (Or.inr (ih h1))
        · simp only [matchedVbnos, List.filterMap_cons, if_neg hcond] at h
          simp only [backchKeys, List.filterMap_cons]
          exact List.mem_cons.mpr (Or.inr (ih h))
      | streamEnd b o st v0 =>
        simp only [matchedVbnos, List.filterMap_cons] at h
        simpa [backchKeys] using ih h
      | finKVData b =>
        simp only [matchedVbnos, List.filterMap_cons] at h
        simpa [backchKeys] using ih h
    | slice xs =>
      simp only [matchedVbnos, List.filterMap_cons] at h
      simpa [backchKeys] using ih h

theorem matchedVbnos_nodup {opq : Nat} {bucketn : String} {ts : TsVbuuid}
    {q : List GoVal} (h : backchOK q) :
    (matchedVbnos opq bucketn ts q).Nodup := by
  induction q with
  | nil => exact List.nodup_nil
  | cons m rest ih =>
    cases m with
    | ctrl c =>
      cases c with
      | streamRequest b o st v0 vb sq =>
        have hkeys : backchKeys (GoVal.ctrl (CtrlVal.streamRequest b o st v0 vb sq) :: rest) =
            (b, o, v0) :: backchKeys rest := by
          simp [backchKeys]
        rw [backchOK, hkeys, List.nodup_cons] at h
        by_cases hcond : b = bucketn ∧ o = opq ∧ ts.hasVbno v0
        · simp only [matchedVbnos, List.filterMap_cons, if_pos hcond]
          rw [List.nodup_cons]
          refine ⟨fun hmem => ?_, ih h.2⟩
          have := mem_matchedVbnos_keys hmem
          rw [hcond.1, hcond.2.1] at h
          exact h.1 this
        · simp only [matchedVbnos, List.filterMap_cons, if_neg hcond]
          exact ih h.2
      | streamEnd b o st v0 =>
        rw [backchOK] at h
        simp only [backchKeys, List.filterMap_cons] at h
        simp only [matchedVbnos, List.filterMap_cons]
        exact ih h
      | finKVData b =>
        rw [backchOK] at h
        simp only [backchKeys, List.filterMap_cons] at h
        simp only [matchedVbnos, List.filterMap_cons]
        exact ih h
    | slice xs =>
      rw [backchOK] at h
      simp only [backchKeys, List.filterMap_cons] at h
      simp only [matchedVbnos, List.filterMap_cons]
      exact ih h

/-- Loop invariant of the stream-request reconciler: every classified
partition lies in the expected set, the rollback and active outputs are
disjoint, and the matchable part of the remaining queue is duplicate-free
and untouched by the outputs so far. -/
def ReqInv (opq : Nat) (bucketn : String) (ts : TsVbuuid) (s : ReqWaitSt)
    (q : List GoVal) : Prop :=
  (∀ v ∈ s.rollTs.getVbnos, v ∈ ts.getVbnos) ∧
  (∀ v ∈ s.actTs.getVbnos, v ∈ ts.getVbnos) ∧
  (∀ v ∈ s.failTs.getVbnos, v ∈ ts.getVbnos) ∧
  (∀ v ∈ s.rollTs.getVbnos, v ∉ s.actTs.getVbnos) ∧
  (∀ v ∈ matchedVbnos opq bucketn ts q,
    v ∉ s.rollTs.getVbnos ∧ v ∉ s.actTs.getVbnos) ∧
  (matchedVbnos opq bucketn ts q).Nodup

theorem reqCallb_inv (opq : Nat) (bucketn : String) (ts : TsVbuuid) :
    ∀ (s : ReqWaitSt) (msg : GoVal) (rest : List GoVal),
      ReqInv opq bucketn ts s (msg :: rest) →
      ReqInv opq bucketn ts (reqCallb opq bucketn ts s msg).1 rest := by
  intro s msg rest h
  obtain ⟨h1, h2, h3, h4, h5, h6⟩ := h
  cases msg with
  | slice xs =>
    simp only [matchedVbnos, List.filterMap_cons] at h5 h6
    exact ⟨h1, h2, h3, h4, h5, h6⟩
  | ctrl c =>
    cases c with
    | streamEnd b o st v0 =>
      simp only [matchedVbnos, List.filterMap_cons] at h5 h6
      exact ⟨h1, h2, h3, h4, h5, h6⟩
    | finKVData b =>
      simp only [matchedVbnos, List.filterMap_cons] at h5 h6
      exact ⟨h1, h2, h3, h4, h5, h6⟩
    | streamRequest b o st v0 vb sq =>
      by_cases hcond : b = bucketn ∧ o = opq ∧ ts.hasVbno v0
      · have hmatched :
            matchedVbnos opq bucketn ts
              (GoVal.ctrl (CtrlVal.streamRequest b o st v0 vb sq) :: rest) =
            v0 :: matchedVbnos opq bucketn ts rest := by
          simp [matchedVbnos, List.filterMap_cons, if_pos hcond]
        rw [hmatched] at h5 h6
        have hts0 : v0 ∈ ts.getVbnos := TsVbuuid.hasVbno_iff.mp hcond.2.2
        have hv0 := h5 v0 (List.mem_cons_self v0 _)
        have h5t : ∀ v ∈ matchedVbnos opq bucketn ts rest,
            v ∉ s.rollTs.getVbnos ∧ v ∉ s.actTs.getVbnos :=
          fun v hv => h5 v (List.mem_cons_of_mem _ hv)
        have hv0rest : v0 ∉ matchedVbnos opq bucketn ts rest :=
          (List.nodup_cons.mp h6).1
        have h6t : (matchedVbnos opq bucketn ts rest).Nodup :=
          (List.nodup_cons.mp h6).2
        cases st with
        | success =>
          simp only [reqCallb, if_pos hcond, apply_ite Prod.fst, ite_self]
          refine ⟨h1, ?_, h3, ?_, ?_, h6t⟩
          · intro v hv
            rw [TsVbuuid.getVbnos_append] at hv
            rcases List.mem_append.mp hv with hv | hv
            · exact h2 v hv
            · rwa [List.mem_singleton.mp hv]
          · intro v hv
            rw [TsVbuuid.getVbnos_append, List.mem_append]
            rintro (hv2 | hv2)
            · exact h4 v hv hv2
            · rw [List.mem_singleton.mp hv2] at hv
              exact hv0.1 hv
          · intro v hv
            refine ⟨(h5t v hv).1, ?_⟩
            rw [TsVbuuid.getVbnos_append, List.mem_append]
            rintro (hv2 | hv2)
            · exact (h5t v hv).2 hv2
            · rw [List.mem_singleton.mp hv2] at hv
              exact hv0rest hv
        | rollback =>
          simp only [reqCallb, if_pos hcond, apply_ite Prod.fst, ite_self]
          refine ⟨?_, h2, h3, ?_, ?_, h6t⟩
          · intro v hv
            rw [TsVbuuid.getVbnos_append] at hv
            rcases List.mem_append.mp hv with hv | hv
            · exact h1 v hv
            · rwa [List.mem_singleton.mp hv]
          · intro v hv
            rw [TsVbuuid.getVbnos_append] at hv
            rcases List.mem_append.mp hv with hv | hv
            · exact h4 v hv
            · rw [List.mem_singleton.mp hv]
              exact hv0.2
          · intro v hv
            refine ⟨?_, (h5t v hv).2⟩
            rw [TsVbuuid.getVbnos_append, List.mem_append]
            rintro (hv2 | hv2)
            · exact (h5t v hv).1 hv2
            · rw [List.mem_singleton.mp hv2] at hv
              exact hv0rest hv
        | notMyVbucket =>
          simp only [reqCallb, if_pos hcond, apply_ite Prod.fst, ite_self]
          refine ⟨h1, h2, ?_, h4, h5t, h6t⟩
          intro v hv
          rw [TsVbuuid.getVbnos_append] at hv
          rcases List.mem_append.mp hv with hv | hv
          · exact h3 v hv
          · rwa [List.mem_singleton.mp hv]
        | other code =>
          simp only [reqCallb, if_pos hcond, apply_ite Prod.fst, ite_self]
          refine ⟨h1, h2, ?_, h4, h5t, h6t⟩
          intro v hv
          rw [TsVbuuid.getVbnos_append] at hv
          rcases List.mem_append.mp hv with hv | hv
          · exact h3 v hv
          · rwa [List.mem_singleton.mp hv]
      · have hmatched :
            matchedVbnos opq bucketn ts
              (GoVal.ctrl (CtrlVal.streamRequest b o st v0 vb sq) :: rest) =
            matchedVbnos opq bucketn ts rest := by
          simp [matchedVbnos, List.filterMap_cons, if_neg hcond]
        rw [hmatched] at h5 h6
        simp only [reqCallb, if_neg hcond]
        exact ⟨h1, h2, h3, h4, h5, h6⟩

theorem waitStreamRequests_spec {env : Env} {opq : Nat} {pooln bucketn : String}
    {ts : TsVbuuid} {backch : List GoVal} {r f a : TsVbuuid} {e : Option ProjErr}
    {b2 : List GoVal}
    (hrun : waitStreamRequests env opq pooln bucketn ts backch = (r, f, a, e, b2))
    (hback : backchOK backch) :
    (∀ v ∈ r.getVbnos, v ∈ ts.getVbnos) ∧
    (∀ v ∈ a.getVbnos, v ∈ ts.getVbnos) ∧
    (∀ v ∈ f.getVbnos, v ∈ ts.getVbnos) ∧
    (∀ v ∈ r.getVbnos, v ∉ a.getVbnos) ∧
    backchOK b2 := by
  rw [waitStreamRequests] at hrun
  by_cases hemp : ts.getVbnos.isEmpty
  · rw [if_pos hemp] at hrun
    obtain ⟨rfl, rfl, rfl, rfl, rfl⟩ := Prod.mk.injEq .. ▸ hrun
    refine ⟨?_, ?_, ?_, ?_, hback⟩ <;>
      simp [TsVbuuid.getVbnos]
  · rw [if_neg hemp] at hrun
    simp only [waitOnFeedback] at hrun
    set s0 : ReqWaitSt := ⟨⟨ts.pool, ts.bucket, []⟩, ⟨ts.pool, ts.bucket, []⟩,
      ⟨ts.pool, ts.bucket, []⟩, ts.getVbnos, none⟩ with hs0
    have hinit : ReqInv opq bucketn ts s0 backch := by
      refine ⟨?_, ?_, ?_, ?_, ?_, matchedVbnos_nodup hback⟩ <;>
        simp [hs0, TsVbuuid.getVbnos]
    have hfinal := waitLoop_inv (reqCallb opq bucketn ts) (ReqInv opq bucketn ts)
      (reqCallb_inv opq bucketn ts) (env.cut bucketn) backch s0 [] hinit
    have hsuffix := waitLoop_suffix (reqCallb opq bucketn ts)
      (env.cut bucketn) backch s0 []
    obtain ⟨rfl, rfl, rfl, rfl, rfl⟩ := Prod.mk.injEq .. ▸ hrun
    obtain ⟨g1, g2, g3, g4, g5, g6⟩ := hfinal
    refine ⟨g1, g2, g3, g4, ?_⟩
    rw [backchOK, backchKeys_append, backchKeys_wraps, List.append_nil]
    exact ((backchKeys_sublist hsuffix.sublist).nodup) hback

/-! ### Preservation of the invariant by the book-keeping steps -/

theorem bucketOK_congr {f1 f2 : Feed} {b : String}
    (hr : alookup f2.reqTss b = alookup f1.reqTss b)
    (ha : alookup f2.actTss b = alookup f1.actTss b)
    (hl : alookup f2.rollTss b = alookup f1.rollTss b)
    (h : bucketOK f1 b) : bucketOK f2 b := by
  unfold bucketOK bucketDisjoint at h ⊢
  rw [hr, ha, hl]
  exact h

theorem streamBookkeeping_inv {env : Env} {opq : Nat} {pooln bucketn : String}
    {ts : TsVbuuid} {rollTs? actTs? : Option TsVbuuid} {reqTs : TsVbuuid}
    {feed : Feed}
    (hInv : FeedInv feed) (hback : backchOK feed.backch)
    (hreq_nodup : reqTs.getVbnos.Nodup)
    (hreq_act : ∀ v ∈ reqTs.getVbnos, v ∉ ovbnos actTs?)
    (hreq_roll : ∀ v ∈ reqTs.getVbnos, v ∉ ovbnos rollTs?)
    (hts_act : ∀ v ∈ ts.getVbnos, v ∉ ovbnos actTs?)
    (hts_roll : ∀ v ∈ ts.getVbnos, v ∉ ovbnos rollTs?)
    (hact_roll : ∀ v ∈ ovbnos actTs?, v ∉ ovbnos rollTs?) :
    FeedInv (streamBookkeeping env opq pooln bucketn ts rollTs? actTs? reqTs feed).1 ∧
    backchOK (streamBookkeeping env opq pooln bucketn ts rollTs? actTs? reqTs feed).1.backch := by
  rcases hw : waitStreamRequests env opq pooln bucketn ts feed.backch with
    ⟨r, fl, a, e, b2⟩
  obtain ⟨g1, g2, g3, g4, g5⟩ := waitStreamRequests_spec hw hback
  have hres : (streamBookkeeping env opq pooln bucketn ts rollTs? actTs? reqTs feed).1 =
      { feed with
        rollTss := ainsert feed.rollTss bucketn (TsVbuuid.unionO rollTs? r)
        actTss := ainsert feed.actTss bucketn (TsVbuuid.unionO actTs? a)
        reqTss := ainsert feed.reqTss bucketn
          (((reqTs.filterByVbuckets r.getVbnos).filterByVbuckets
            a.getVbnos).filterByVbuckets fl.getVbnos)
        backch := b2 } := by
    simp only [streamBookkeeping, hw]
  rw [hres]
  constructor
  · intro b
    by_cases hb : b = bucketn
    · subst hb
      have hreq : alookup (ainsert feed.reqTss b
          (((reqTs.filterByVbuckets r.getVbnos).filterByVbuckets
            a.getVbnos).filterByVbuckets fl.getVbnos)) b =
          some (((reqTs.filterByVbuckets r.getVbnos).filterByVbuckets
            a.getVbnos).filterByVbuckets fl.getVbnos) := alookup_ainsert_self ..
      have hact : alookup (ainsert feed.actTss b (TsVbuuid.unionO actTs? a)) b =
          some (TsVbuuid.unionO actTs? a) := alookup_ainsert_self ..
      have hroll : alookup (ainsert feed.rollTss b (TsVbuuid.unionO rollTs? r)) b =
          some (TsVbuuid.unionO rollTs? r) := alookup_ainsert_self ..
      refine ⟨?_, ?_, ?_, ?_, ?_, ?_⟩
      · show (alookup (ainsert feed.actTss b _) b).isSome = _
        rw [hact, hreq]
        rfl
      · show (alookup (ainsert feed.rollTss b _) b).isSome = _
        rw [hroll, hreq]
        rfl
      · show (ovbnos (alookup (ainsert feed.reqTss b _) b)).Nodup
        rw [hreq, ovbnos_some]
        exact TsVbuuid.nodup_filter _ (TsVbuuid.nodup_filter _
          (TsVbuuid.nodup_filter _ hreq_nodup))
      · intro v hv
        rw [hreq, ovbnos_some] at hv
        rw [hact, ovbnos_some, TsVbuuid.mem_getVbnos_unionO]
        rw [TsVbuuid.mem_getVbnos_filter] at hv
        obtain ⟨hv3, hvf⟩ := hv
        rw [TsVbuuid.mem_getVbnos_filter] at hv3
        obtain ⟨hv2, hva⟩ := hv3
        rw [TsVbuuid.mem_getVbnos_filter] at hv2
        obtain ⟨hv1, hvr⟩ := hv2
        rintro (hc | hc)
        · exact hreq_act v hv1 hc
        · exact hva hc
      · intro v hv
        rw [hreq, ovbnos_some] at hv
        rw [hroll, ovbnos_some, TsVbuuid.mem_getVbnos_unionO]
        rw [TsVbuuid.mem_getVbnos_filter] at hv
        obtain ⟨hv3, hvf⟩ := hv
        rw [TsVbuuid.mem_getVbnos_filter] at hv3
        obtain ⟨hv2, hva⟩ := hv3
        rw [TsVbuuid.mem_getVbnos_filter] at hv2
        obtain ⟨hv1, hvr⟩ := hv2
        rintro (hc | hc)
        · exact hreq_roll v hv1 hc
        · exact hvr hc
      · intro v hv
        rw [hact, ovbnos_some, TsVbuuid.mem_getVbnos_unionO] at hv
        rw [hroll, ovbnos_some, TsVbuuid.mem_getVbnos_unionO]
        rintro (hc | hc)
        · rcases hv with hv | hv
          · exact hact_roll v hv hc
          · exact hts_roll v (g2 v hv) hc
        · rcases hv with hv | hv
          · exact hts_act v (g1 v hc) hv
          · exact g4 v hc hv
    · exact bucketOK_congr (alookup_ainsert_ne _ _ _ _ hb)
        (alookup_ainsert_ne _ _ _ _ hb) (alookup_ainsert_ne _ _ _ _ hb) (hInv b)
  · exact g5

theorem cleanupBucket_inv {feed : Feed} {b : String} {engOk : Bool}
    (hInv : FeedInv feed) : FeedInv (cleanupBucket feed b engOk) := by
  intro b'
  by_cases hb : b' = b
  · subst hb
    refine ⟨?_, ?_, ?_, ?_, ?_, ?_⟩ <;>
      simp [cleanupBucket, bucketDisjoint, alookup_aerase_self, ovbnos]
  · exact bucketOK_congr (alookup_aerase _ _ _ hb) (alookup_aerase _ _ _ hb)
      (alookup_aerase _ _ _ hb) (hInv b')

theorem mem_ovbnos_map_filter {x? : Option TsVbuuid} {L : List Nat} {v : Nat} :
    v ∈ ovbnos (x?.map (fun x => x.filterByVbuckets L)) ↔
    v ∈ ovbnos x? ∧ v ∉ L := by
  cases x? with
  | none => simp [ovbnos]
  | some x => simpa [ovbnos] using TsVbuuid.mem_getVbnos_filter

/-- The hypotheses every caller of `streamBookkeeping` establishes, in the
shape all three stream-opening per-bucket loops share: the rollback set
passed in is the stored one filtered by a list covering the final
timestamp, the active set is the stored one, and the new outstanding base
draws only from the final timestamp and the stored outstanding set. -/
theorem startTail_inv {env : Env} {opq : Nat} {pooln bucketn : String}
    {feed : Feed} {midL : List Nat} {ts R : TsVbuuid}
    {act? roll? req? : Option TsVbuuid}
    (hInv : FeedInv feed) (hback : backchOK feed.backch)
    (hacl : alookup feed.actTss bucketn = act?)
    (hrll : alookup feed.rollTss bucketn = roll?)
    (hrql : alookup feed.reqTss bucketn = req?)
    (hts_mid : ∀ v ∈ ts.getVbnos, v ∈ midL)
    (hts_act : ∀ v ∈ ts.getVbnos, v ∉ ovbnos act?)
    (hR : ∀ v ∈ R.getVbnos, v ∈ ts.getVbnos ∨ v ∈ ovbnos req?)
    (hR_nodup : R.getVbnos.Nodup) :
    FeedInv (streamBookkeeping env opq pooln bucketn ts
      (roll?.map (fun rollTs => rollTs.filterByVbuckets midL)) act? R feed).1 ∧
    backchOK (streamBookkeeping env opq pooln bucketn ts
      (roll?.map (fun rollTs => rollTs.filterByVbuckets midL))
      act? R feed).1.backch := by
  obtain ⟨hdomA, hdomR, hN, hRA, hRR, hAR⟩ := hInv bucketn
  rw [hacl] at hRA hAR
  rw [hrll] at hRR hAR
  rw [hrql] at hRA hRR
  refine streamBookkeeping_inv hInv hback hR_nodup ?_ ?_ hts_act ?_ ?_
  · intro v hv
    rcases hR v hv with hc | hc
    · exact hts_act v hc
    · exact hRA v hc
  · intro v hv
    rw [mem_ovbnos_map_filter]
    rintro ⟨hroll, hmid⟩
    rcases hR v hv with hc | hc
    · exact hmid (hts_mid v hc)
    · exact hRR v hc hroll
  · intro v hv
    rw [mem_ovbnos_map_filter]
    rintro ⟨hroll, hmid⟩
    exact hmid (hts_mid v hv)
  · intro v hv
    rw [mem_ovbnos_map_filter]
    rintro ⟨hroll, hmid⟩
    exact hAR v hv hroll

theorem startOneBucket_inv {env : Env} {opq : Nat} {feed : Feed} {ts0 : TsVbuuid}
    (hInv : FeedInv feed) (hback : backchOK feed.backch) (hwf : tsWF ts0) :
    FeedInv (startOneBucket env opq feed ts0).1 ∧
    backchOK (startOneBucket env opq feed ts0).1.backch := by
  rcases hloc : env.localVbuckets ts0.pool ts0.bucket with _ | vbnos
  · simp only [startOneBucket, hloc]
    exact ⟨cleanupBucket_inv hInv, hback⟩
  rcases hacl : alookup feed.actTss ts0.bucket with _ | actTs
  · rcases hrql : alookup feed.reqTss ts0.bucket with _ | reqTs0
    · have hts_mid : ∀ v ∈ (ts0.selectByVbuckets vbnos).getVbnos,
          v ∈ (ts0.selectByVbuckets vbnos).getVbnos := fun v hv => hv
      have hts_act : ∀ v ∈ (ts0.selectByVbuckets vbnos).getVbnos,
          v ∉ ovbnos (none : Option TsVbuuid) := by simp [ovbnos]
      have hR : ∀ v ∈ ((ts0.selectByVbuckets vbnos).union none).getVbnos,
          v ∈ (ts0.selectByVbuckets vbnos).getVbnos ∨
          v ∈ ovbnos (none : Option TsVbuuid) :=
        fun v hv => TsVbuuid.mem_getVbnos_union.mp hv
      have hRn : ((ts0.selectByVbuckets vbnos).union none).getVbnos.Nodup :=
        TsVbuuid.nodup_union (TsVbuuid.nodup_select vbnos hwf) List.nodup_nil
      simp only [startOneBucket, hloc, hacl, hrql]
      split
      · exact ⟨cleanupBucket_inv hInv, hback⟩
      · simp only [apply_ite Prod.fst]
        split <;>
          exact startTail_inv (fun b => bucketOK_congr rfl rfl rfl (hInv b))
            hback hacl rfl hrql hts_mid hts_act hR hRn
    · have hts_mid : ∀ v ∈ ((ts0.selectByVbuckets vbnos).filterByVbuckets
            reqTs0.getVbnos).getVbnos,
          v ∈ (ts0.selectByVbuckets vbnos).getVbnos :=
        fun v hv => (TsVbuuid.mem_getVbnos_filter.mp hv).1
      have hts_act : ∀ v ∈ ((ts0.selectByVbuckets vbnos).filterByVbuckets
            reqTs0.getVbnos).getVbnos,
          v ∉ ovbnos (none : Option TsVbuuid) := by simp [ovbnos]
      have hR : ∀ v ∈ (((ts0.selectByVbuckets vbnos).filterByVbuckets
            reqTs0.getVbnos).union (some reqTs0)).getVbnos,
          v ∈ ((ts0.selectByVbuckets vbnos).filterByVbuckets
            reqTs0.getVbnos).getVbnos ∨ v ∈ ovbnos (some reqTs0) :=
        fun v hv => TsVbuuid.mem_getVbnos_union.mp hv
      have hRn : (((ts0.selectByVbuckets vbnos).filterByVbuckets
            reqTs0.getVbnos).union (some reqTs0)).getVbnos.Nodup := by
        refine TsVbuuid.nodup_union
          (TsVbuuid.nodup_filter _ (TsVbuuid.nodup_select vbnos hwf)) ?_
        have := (hInv ts0.bucket).2.2.1
        rwa [hrql, ovbnos_some] at this
      simp only [startOneBucket, hloc, hacl, hrql]
      split
      · exact ⟨cleanupBucket_inv hInv, hback⟩
      · simp only [apply_ite Prod.fst]
        split <;>
          exact startTail_inv (fun b => bucketOK_congr rfl rfl rfl (hInv b))
            hback hacl rfl hrql hts_mid hts_act hR hRn
  rcases hrql : alookup feed.reqTss ts0.bucket with _ | reqTs0
  · have hts_mid : ∀ v ∈ ((ts0.selectByVbuckets vbnos).filterByVbuckets
          actTs.getVbnos).getVbnos,
        v ∈ ((ts0.selectByVbuckets vbnos).filterByVbuckets
          actTs.getVbnos).getVbnos := fun v hv => hv
    have hts_act : ∀ v ∈ ((ts0.selectByVbuckets vbnos).filterByVbuckets
          actTs.getVbnos).getVbnos, v ∉ ovbnos (some actTs) :=
      fun v hv => (TsVbuuid.mem_getVbnos_filter.mp hv).2
    have hR : ∀ v ∈ (((ts0.selectByVbuckets vbnos).filterByVbuckets
          actTs.getVbnos).union none).getVbnos,
        v ∈ ((ts0.selectByVbuckets vbnos).filterByVbuckets
          actTs.getVbnos).getVbnos ∨ v ∈ ovbnos (none : Option TsVbuuid) :=
      fun v hv => TsVbuuid.mem_getVbnos_union.mp hv
    have hRn : (((ts0.selectByVbuckets vbnos).filterByVbuckets
          actTs.getVbnos).union none).getVbnos.Nodup :=
      TsVbuuid.nodup_union
        (TsVbuuid.nodup_filter _ (TsVbuuid.nodup_select vbnos hwf)) List.nodup_nil
    simp only [startOneBucket, hloc, hacl, hrql]
    split
    · exact ⟨cleanupBucket_inv hInv, hback⟩
    · simp only [apply_ite Prod.fst]
      split <;>
        exact startTail_inv (fun b => bucketOK_congr rfl rfl rfl (hInv b))
          hback hacl rfl hrql hts_mid hts_act hR hRn
  · have hts_mid : ∀ v ∈ (((ts0.selectByVbuckets vbnos).filterByVbuckets
          actTs.getVbnos).filterByVbuckets reqTs0.getVbnos).getVbnos,
        v ∈ ((ts0.selectByVbuckets vbnos).filterByVbuckets
          actTs.getVbnos).getVbnos :=
      fun v hv => (TsVbuuid.mem_getVbnos_filter.mp hv).1
    have hts_act : ∀ v ∈ (((ts0.selectByVbuckets vbnos).filterByVbuckets
          actTs.getVbnos).filterByVbuckets reqTs0.getVbnos).getVbnos,
        v ∉ ovbnos (some actTs) :=
      fun v hv => (TsVbuuid.mem_getVbnos_filter.mp
        (TsVbuuid.mem_getVbnos_filter.mp hv).1).2
    have hR : ∀ v ∈ ((((ts0.selectByVbuckets vbnos).filterByVbuckets
          actTs.getVbnos).filterByVbuckets reqTs0.getVbnos).union
          (some reqTs0)).getVbnos,
        v ∈ (((ts0.selectByVbuckets vbnos).filterByVbuckets
          actTs.getVbnos).filterByVbuckets reqTs0.getVbnos).getVbnos ∨
        v ∈ ovbnos (some reqTs0) :=
      fun v hv => TsVbuuid.mem_getVbnos_union.mp hv
    have hRn : ((((ts0.selectByVbuckets vbnos).filterByVbuckets
          actTs.getVbnos).filterByVbuckets reqTs0.getVbnos).union
          (some reqTs0)).getVbnos.Nodup := by
      refine TsVbuuid.nodup_union (TsVbuuid.nodup_filter _
        (TsVbuuid.nodup_filter _ (TsVbuuid.nodup_select vbnos hwf))) ?_
      have := (hInv ts0.bucket).2.2.1
      rwa [hrql, ovbnos_some] at this
    simp only [startOneBucket, hloc, hacl, hrql]
    split
    · exact ⟨cleanupBucket_inv hInv, hback⟩
    · simp only [apply_ite Prod.fst]
      split <;>
        exact startTail_inv (fun b => bucketOK_congr rfl rfl rfl (hInv b))
          hback hacl rfl hrql hts_mid hts_act hR hRn

theorem restartOneBucket_inv {env : Env} {opq : Nat} {feed : Feed}
    {ts0 : TsVbuuid}
    (hInv : FeedInv feed) (hback : backchOK feed.backch) (hwf : tsWF ts0) :
    FeedInv (restartOneBucket env opq feed ts0).1 ∧
    backchOK (restartOneBucket env opq feed ts0).1.backch := by
  rcases hloc : env.localVbuckets ts0.pool ts0.bucket with _ | vbnos
  · simp only [restartOneBucket, hloc]
    exact ⟨cleanupBucket_inv hInv, hback⟩
  rcases hacl : alookup feed.actTss ts0.bucket with _ | actTs
  · rcases hrql : alookup feed.reqTss ts0.bucket with _ | reqTs0
    · have hts_mid : ∀ v ∈ (ts0.selectByVbuckets vbnos).getVbnos,
          v ∈ (ts0.selectByVbuckets vbnos).getVbnos := fun v hv => hv
      have hts_act : ∀ v ∈ (ts0.selectByVbuckets vbnos).getVbnos,
          v ∉ ovbnos (none : Option TsVbuuid) := by simp [ovbnos]
      have hR : ∀ v ∈ ((ts0.selectByVbuckets vbnos).union
            (some (ts0.selectByVbuckets vbnos))).getVbnos,
          v ∈ (ts0.selectByVbuckets vbnos).getVbnos ∨
          v ∈ ovbnos (none : Option TsVbuuid) := by
        intro v hv
        rcases TsVbuuid.mem_getVbnos_union.mp hv with hc | hc
        · exact Or.inl hc
        · exact Or.inl hc
      have hRn : ((ts0.selectByVbuckets vbnos).union
            (some (ts0.selectByVbuckets vbnos))).getVbnos.Nodup :=
        TsVbuuid.nodup_union (TsVbuuid.nodup_select vbnos hwf)
          (TsVbuuid.nodup_select vbnos hwf)
      simp only [restartOneBucket, hloc, hacl, hrql]
      split
      · exact ⟨cleanupBucket_inv hInv, hback⟩
      · split <;>
          exact startTail_inv (fun b => bucketOK_congr rfl rfl rfl (hInv b))
            hback hacl rfl hrql hts_mid hts_act hR hRn
    · have hts_mid : ∀ v ∈ ((ts0.selectByVbuckets vbnos).filterByVbuckets
            reqTs0.getVbnos).getVbnos,
          v ∈ (ts0.selectByVbuckets vbnos).getVbnos :=
        fun v hv => (TsVbuuid.mem_getVbnos_filter.mp hv).1
      have hts_act : ∀ v ∈ ((ts0.selectByVbuckets vbnos).filterByVbuckets
            reqTs0.getVbnos).getVbnos,
          v ∉ ovbnos (none : Option TsVbuuid) := by simp [ovbnos]
      have hR : ∀ v ∈ (((ts0.selectByVbuckets vbnos).filterByVbuckets
            reqTs0.getVbnos).union (some ((ts0.selectByVbuckets
            vbnos).filterByVbuckets reqTs0.getVbnos))).getVbnos,
          v ∈ ((ts0.selectByVbuckets vbnos).filterByVbuckets
            reqTs0.getVbnos).getVbnos ∨ v ∈ ovbnos (some reqTs0) := by
        intro v hv
        rcases TsVbuuid.mem_getVbnos_union.mp hv with hc | hc
        · exact Or.inl hc
        · exact Or.inl hc
      have hRn : (((ts0.selectByVbuckets vbnos).filterByVbuckets
            reqTs0.getVbnos).union (some ((ts0.selectByVbuckets
            vbnos).filterByVbuckets reqTs0.getVbnos))).getVbnos.Nodup :=
        TsVbuuid.nodup_union
          (TsVbuuid.nodup_filter _ (TsVbuuid.nodup_select vbnos hwf))
          (TsVbuuid.nodup_filter _ (TsVbuuid.nodup_select vbnos hwf))
      simp only [restartOneBucket, hloc, hacl, hrql]
      split
      · exact ⟨cleanupBucket_inv hInv, hback⟩
      · split <;>
          exact startTail_inv (fun b => bucketOK_congr rfl rfl rfl (hInv b))
            hback hacl rfl hrql hts_mid hts_act hR hRn
  rcases hrql : alookup feed.reqTss ts0.bucket with _ | reqTs0
  · have hts_mid : ∀ v ∈ ((ts0.selectByVbuckets vbnos).filterByVbuckets
          actTs.getVbnos).getVbnos,
        v ∈ ((ts0.selectByVbuckets vbnos).filterByVbuckets
          actTs.getVbnos).getVbnos := fun v hv => hv
    have hts_act : ∀ v ∈ ((ts0.selectByVbuckets vbnos).filterByVbuckets
          actTs.getVbnos).getVbnos, v ∉ ovbnos (some actTs) :=
      fun v hv => (TsVbuuid.mem_getVbnos_filter.mp hv).2
    have hR : ∀ v ∈ (((ts0.selectByVbuckets vbnos).filterByVbuckets
          actTs.getVbnos).union (some ((ts0.selectByVbuckets
          vbnos).filterByVbuckets actTs.getVbnos))).getVbnos,
        v ∈ ((ts0.selectByVbuckets vbnos).filterByVbuckets
          actTs.getVbnos).getVbnos ∨ v ∈ ovbnos (none : Option TsVbuuid) := by
      intro v hv
      rcases TsVbuuid.mem_getVbnos_union.mp hv with hc | hc
      · exact Or.inl hc
      · exact Or.inl hc
    have hRn : (((ts0.selectByVbuckets vbnos).filterByVbuckets
          actTs.getVbnos).union (some ((ts0.selectByVbuckets
          vbnos).filterByVbuckets actTs.getVbnos))).getVbnos.Nodup :=
      TsVbuuid.nodup_union
        (TsVbuuid.nodup_filter _ (TsVbuuid.nodup_select vbnos hwf))
        (TsVbuuid.nodup_filter _ (TsVbuuid.nodup_select vbnos hwf))
    simp only [restartOneBucket, hloc, hacl, hrql]
    split
    · exact ⟨cleanupBucket_inv hInv, hback⟩
    · split <;>
        exact startTail_inv (fun b => bucketOK_congr rfl rfl rfl (hInv b))
          hback hacl rfl hrql hts_mid hts_act hR hRn
  · have hts_mid : ∀ v ∈ (((ts0.selectByVbuckets vbnos).filterByVbuckets
          actTs.getVbnos).filterByVbuckets reqTs0.getVbnos).getVbnos,
        v ∈ ((ts0.selectByVbuckets vbnos).filterByVbuckets
          actTs.getVbnos).getVbnos :=
      fun v hv => (TsVbuuid.mem_getVbnos_filter.mp hv).1
    have hts_act : ∀ v ∈ (((ts0.selectByVbuckets vbnos).filterByVbuckets
          actTs.getVbnos).filterByVbuckets reqTs0.getVbnos).getVbnos,
        v ∉ ovbnos (some actTs) :=
      fun v hv => (TsVbuuid.mem_getVbnos_filter.mp
        (TsVbuuid.mem_getVbnos_filter.mp hv).1).2
    have hR : ∀ v ∈ ((((ts0.selectByVbuckets vbnos).filterByVbuckets
          actTs.getVbnos).filterByVbuckets reqTs0.getVbnos).union
          (some (((ts0.selectByVbuckets vbnos).filterByVbuckets
          actTs.getVbnos).filterByVbuckets reqTs0.getVbnos))).getVbnos,
        v ∈ (((ts0.selectByVbuckets vbnos).filterByVbuckets
          actTs.getVbnos).filterByVbuckets reqTs0.getVbnos).getVbnos ∨
        v ∈ ovbnos (some reqTs0) := by
      intro v hv
      rcases TsVbuuid.mem_getVbnos_union.mp hv with hc | hc
      · exact Or.inl hc
      · exact Or.inl hc
    have hRn : ((((ts0.selectByVbuckets vbnos).filterByVbuckets
          actTs.getVbnos).filterByVbuckets reqTs0.getVbnos).union
          (some (((ts0.selectByVbuckets vbnos).filterByVbuckets
          actTs.getVbnos).filterByVbuckets reqTs0.getVbnos))).getVbnos.Nodup :=
      TsVbuuid.nodup_union (TsVbuuid.nodup_filter _
        (TsVbuuid.nodup_filter _ (TsVbuuid.nodup_select vbnos hwf)))
        (TsVbuuid.nodup_filter _
          (TsVbuuid.nodup_filter _ (TsVbuuid.nodup_select vbnos hwf)))
    simp only [restartOneBucket, hloc, hacl, hrql]
    split
    · exact ⟨cleanupBucket_inv hInv, hback⟩
    · split <;>
        exact startTail_inv (fun b => bucketOK_congr rfl rfl rfl (hInv b))
          hback hacl rfl hrql hts_mid hts_act hR hRn

theorem addOneBucket_inv {env : Env} {opq : Nat} {feed : Feed} {ts0 : TsVbuuid}
    (hInv : FeedInv feed) (hback : backchOK feed.backch) (hwf : tsWF ts0)
    (hdisj : ∀ v ∈ ts0.getVbnos, v ∉ ovbnos (alookup feed.actTss ts0.bucket)) :
    FeedInv (addOneBucket env opq feed ts0).1 ∧
    backchOK (addOneBucket env opq feed ts0).1.backch := by
  rcases hloc : env.localVbuckets ts0.pool ts0.bucket with _ | vbnos
  · simp only [addOneBucket, hloc]
    exact ⟨cleanupBucket_inv hInv, hback⟩
  rcases hrql : alookup feed.reqTss ts0.bucket with _ | reqTs0
  · have hts_mid : ∀ v ∈ (ts0.selectByVbuckets vbnos).getVbnos,
        v ∈ (ts0.selectByVbuckets vbnos).getVbnos := fun v hv => hv
    have hts_act : ∀ v ∈ (ts0.selectByVbuckets vbnos).getVbnos,
        v ∉ ovbnos (alookup feed.actTss ts0.bucket) :=
      fun v hv => hdisj v (TsVbuuid.mem_getVbnos_select.mp hv).1
    have hR : ∀ v ∈ ((ts0.selectByVbuckets vbnos).union
          (some (ts0.selectByVbuckets vbnos))).getVbnos,
        v ∈ (ts0.selectByVbuckets vbnos).getVbnos ∨
        v ∈ ovbnos (none : Option TsVbuuid) := by
      intro v hv
      rcases TsVbuuid.mem_getVbnos_union.mp hv with hc | hc
      · exact Or.inl hc
      · exact Or.inl hc
    have hRn : ((ts0.selectByVbuckets vbnos).union
          (some (ts0.selectByVbuckets vbnos))).getVbnos.Nodup :=
      TsVbuuid.nodup_union (TsVbuuid.nodup_select vbnos hwf)
        (TsVbuuid.nodup_select vbnos hwf)
    simp only [addOneBucket, hloc, hrql]
    split
    · exact ⟨cleanupBucket_inv hInv, hback⟩
    · simp only [apply_ite Prod.fst]
      split <;>
        exact startTail_inv (fun b => bucketOK_congr rfl rfl rfl (hInv b))
          hback rfl rfl hrql hts_mid hts_act hR hRn
  · have hts_mid : ∀ v ∈ ((ts0.selectByVbuckets vbnos).filterByVbuckets
          reqTs0.getVbnos).getVbnos,
        v ∈ (ts0.selectByVbuckets vbnos).getVbnos :=
      fun v hv => (TsVbuuid.mem_getVbnos_filter.mp hv).1
    have hts_act : ∀ v ∈ ((ts0.selectByVbuckets vbnos).filterByVbuckets
          reqTs0.getVbnos).getVbnos,
        v ∉ ovbnos (alookup feed.actTss ts0.bucket) :=
      fun v hv => hdisj v (TsVbuuid.mem_getVbnos_select.mp
        (TsVbuuid.mem_getVbnos_filter.mp hv).1).1
    have hR : ∀ v ∈ (((ts0.selectByVbuckets vbnos).filterByVbuckets
          reqTs0.getVbnos).union (some ((ts0.selectByVbuckets
          vbnos).filterByVbuckets reqTs0.getVbnos))).getVbnos,
        v ∈ ((ts0.selectByVbuckets vbnos).filterByVbuckets
          reqTs0.getVbnos).getVbnos ∨ v ∈ ovbnos (some reqTs0) := by
      intro v hv
      rcases TsVbuuid.mem_getVbnos_union.mp hv with hc | hc
      · exact Or.inl hc
      · exact Or.inl hc
    have hRn : (((ts0.selectByVbuckets vbnos).filterByVbuckets
          reqTs0.getVbnos).union (some ((ts0.selectByVbuckets
          vbnos).filterByVbuckets reqTs0.getVbnos))).getVbnos.Nodup :=
      TsVbuuid.nodup_union
        (TsVbuuid.nodup_filter _ (TsVbuuid.nodup_select vbnos hwf))
        (TsVbuuid.nodup_filter _ (TsVbuuid.nodup_select vbnos hwf))
    simp only [addOneBucket, hloc, hrql]
    split
    · exact ⟨cleanupBucket_inv hInv, hback⟩
    · simp only [apply_ite Prod.fst]
      split <;>
        exact startTail_inv (fun b => bucketOK_congr rfl rfl rfl (hInv b))
          hback rfl rfl hrql hts_mid hts_act hR hRn

theorem shutdownOneBucket_inv {env : Env} {opq : Nat} {feed : Feed}
    {ts0 : TsVbuuid} (hInv : FeedInv feed) :
    FeedInv (shutdownOneBucket env opq feed ts0).1 := by
  rcases hloc : env.localVbuckets ts0.pool ts0.bucket with _ | vbnos
  · simp only [shutdownOneBucket, hloc]
    exact hInv
  rcases hacl : alookup feed.actTss ts0.bucket with _ | actTs
  · simp only [shutdownOneBucket, hloc, hacl]
    exact hInv
  rcases hrll : alookup feed.rollTss ts0.bucket with _ | rollTs
  · simp only [shutdownOneBucket, hloc, hacl, hrll]
    exact hInv
  rcases hrql : alookup feed.reqTss ts0.bucket with _ | reqTs
  · simp only [shutdownOneBucket, hloc, hacl, hrll, hrql]
    exact hInv
  simp only [shutdownOneBucket, hloc, hacl, hrll, hrql]
  split
  · exact hInv
  intro b'
  by_cases hb : b' = ts0.bucket
  · subst hb
    obtain ⟨hdomA, hdomR, hN, hRA, hRR, hAR⟩ := hInv ts0.bucket
    rw [hacl, ovbnos_some] at hRA hAR
    rw [hrll, ovbnos_some] at hRR hAR
    rw [hrql, ovbnos_some] at hN hRA hRR
    refine ⟨?_, ?_, ?_, ?_, ?_, ?_⟩
    · rw [alookup_ainsert_self, alookup_ainsert_self]
      rfl
    · rw [alookup_ainsert_self, alookup_ainsert_self]
      rfl
    · rw [alookup_ainsert_self, ovbnos_some]
      exact TsVbuuid.nodup_filter _ hN
    · intro v hv
      rw [alookup_ainsert_self, ovbnos_some] at hv ⊢
      rw [TsVbuuid.mem_getVbnos_filter] at hv
      rw [TsVbuuid.mem_getVbnos_filter]
      rintro ⟨hv2, _⟩
      exact hRA v hv.1 hv2
    · intro v hv
      rw [alookup_ainsert_self, ovbnos_some] at hv ⊢
      rw [TsVbuuid.mem_getVbnos_filter] at hv
      rw [TsVbuuid.mem_getVbnos_filter]
      rintro ⟨hv2, _⟩
      exact hRR v hv.1 hv2
    · intro v hv
      rw [alookup_ainsert_self, ovbnos_some] at hv ⊢
      rw [TsVbuuid.mem_getVbnos_filter] at hv
      rw [TsVbuuid.mem_getVbnos_filter]
      rintro ⟨hv2, _⟩
      exact hAR v hv.1 hv2
  · exact bucketOK_congr (alookup_ainsert_ne _ _ _ _ hb)
      (alookup_ainsert_ne _ _ _ _ hb) (alookup_ainsert_ne _ _ _ _ hb) (hInv b')

theorem alookup_filterBucketTs (m : List (String × TsVbuuid)) (bucket b : String)
    (vbno : Nat) :
    alookup (filterBucketTs m bucket vbno) b =
      if b = bucket then (alookup m bucket).map (fun ts => ts.filterByVbuckets [vbno])
      else alookup m b := by
  by_cases hb : b = bucket
  · subst hb
    rw [if_pos rfl]
    rcases h : alookup m b with _ | ts
    · simp [filterBucketTs, h]
    · simp [filterBucketTs, h, alookup_ainsert_self]
  · rw [if_neg hb]
    rcases h : alookup m bucket with _ | ts
    · simp [filterBucketTs, h]
    · simp [filterBucketTs, h, alookup_ainsert_ne _ _ _ _ hb]

theorem nodup_ovbnos_map_filter {x? : Option TsVbuuid} {L : List Nat}
    (h : (ovbnos x?).Nodup) :
    (ovbnos (x?.map (fun ts => ts.filterByVbuckets L))).Nodup := by
  cases x? with
  | none => exact h
  | some x => exact TsVbuuid.nodup_filter _ h

theorem FeedInv_streamEnd {feed : Feed} {bucket : String} {vbno : Nat}
    {bk : List GoVal} (hInv : FeedInv feed) :
    FeedInv { feed with
      reqTss := filterBucketTs feed.reqTss bucket vbno
      actTss := filterBucketTs feed.actTss bucket vbno
      rollTss := filterBucketTs feed.rollTss bucket vbno
      backch := bk } := by
  intro b'
  obtain ⟨hdomA, hdomR, hN, hRA, hRR, hAR⟩ := hInv b'
  have hr := alookup_filterBucketTs feed.reqTss bucket b' vbno
  have ha := alookup_filterBucketTs feed.actTss bucket b' vbno
  have hl := alookup_filterBucketTs feed.rollTss bucket b' vbno
  by_cases hb : b' = bucket
  · rw [if_pos hb] at hr ha hl
    subst hb
    refine ⟨?_, ?_, ?_, ?_, ?_, ?_⟩
    · show (alookup (filterBucketTs feed.actTss b' vbno) b').isSome = _
      rw [ha, hr, Option.isSome_map', Option.isSome_map']
      exact hdomA
    · show (alookup (filterBucketTs feed.rollTss b' vbno) b').isSome = _
      rw [hl, hr, Option.isSome_map', Option.isSome_map']
      exact hdomR
    · show (ovbnos (alookup (filterBucketTs feed.reqTss b' vbno) b')).Nodup
      rw [hr]
      exact nodup_ovbnos_map_filter hN
    · intro v hv
      show v ∉ ovbnos (alookup (filterBucketTs feed.actTss b' vbno) b')
      rw [hr] at hv
      rw [ha, mem_ovbnos_map_filter]
      rw [mem_ovbnos_map_filter] at hv
      rintro ⟨hc, _⟩
      exact hRA v hv.1 hc
    · intro v hv
      show v ∉ ovbnos (alookup (filterBucketTs feed.rollTss b' vbno) b')
      rw [hr] at hv
      rw [hl, mem_ovbnos_map_filter]
      rw [mem_ovbnos_map_filter] at hv
      rintro ⟨hc, _⟩
      exact hRR v hv.1 hc
    · intro v hv
      show v ∉ ovbnos (alookup (filterBucketTs feed.rollTss b' vbno) b')
      rw [ha, mem_ovbnos_map_filter] at hv
      rw [hl, mem_ovbnos_map_filter]
      rintro ⟨hc, _⟩
      exact hAR v hv.1 hc
  · rw [if_neg hb] at hr ha hl
    exact bucketOK_congr hr ha hl (hInv b')

theorem FeedInv_reqFilter {feed : Feed} {bucket : String} {reqTs : TsVbuuid}
    {vbno : Nat} {bk : List GoVal}
    (hrq : alookup feed.reqTss bucket = some reqTs) (hInv : FeedInv feed) :
    FeedInv { feed with
      reqTss := ainsert feed.reqTss bucket (reqTs.filterByVbuckets [vbno])
      backch := bk } := by
  intro b'
  obtain ⟨hdomA, hdomR, hN, hRA, hRR, hAR⟩ := hInv b'
  by_cases hb : b' = bucket
  · subst hb
    rw [hrq] at hdomA hdomR hN hRA hRR
    refine ⟨?_, ?_, ?_, ?_, ?_, hAR⟩
    · show (alookup feed.actTss b').isSome = (alookup (ainsert _ _ _) b').isSome
      rw [alookup_ainsert_self]
      exact hdomA
    · show (alookup feed.rollTss b').isSome = (alookup (ainsert _ _ _) b').isSome
      rw [alookup_ainsert_self]
      exact hdomR
    · show (ovbnos (alookup (ainsert _ _ _) b')).Nodup
      rw [alookup_ainsert_self, ovbnos_some]
      exact TsVbuuid.nodup_filter _ hN
    · intro v hv
      rw [alookup_ainsert_self, ovbnos_some, TsVbuuid.mem_getVbnos_filter] at hv
      exact hRA v hv.1
    · intro v hv
      rw [alookup_ainsert_self, ovbnos_some, TsVbuuid.mem_getVbnos_filter] at hv
      exact hRR v hv.1
  · exact bucketOK_congr (alookup_ainsert_ne _ _ _ _ hb) rfl rfl (hInv b')

theorem FeedInv_reqMoveAct {feed : Feed} {bucket : String} {reqTs actTs : TsVbuuid}
    {vbno s u a' b' : Nat} {bk : List GoVal}
    (hrq : alookup feed.reqTss bucket = some reqTs)
    (hacl : alookup feed.actTss bucket = some actTs)
    (hvno : vbno ∈ reqTs.getVbnos) (hInv : FeedInv feed) :
    FeedInv { feed with
      reqTss := ainsert feed.reqTss bucket (reqTs.filterByVbuckets [vbno])
      actTss := ainsert feed.actTss bucket (actTs.append vbno s u a' b')
      backch := bk } := by
  intro b2
  obtain ⟨hdomA, hdomR, hN, hRA, hRR, hAR⟩ := hInv b2
  by_cases hb : b2 = bucket
  · subst hb
    rw [hrq] at hdomA hdomR hN hRA hRR
    rw [hacl] at hRA hAR
    refine ⟨?_, ?_, ?_, ?_, ?_, ?_⟩
    · rw [alookup_ainsert_self, alookup_ainsert_self]
      rfl
    · show (alookup feed.rollTss b2).isSome = (alookup (ainsert _ _ _) b2).isSome
      rw [alookup_ainsert_self]
      exact hdomR
    · rw [alookup_ainsert_self, ovbnos_some]
      exact TsVbuuid.nodup_filter _ hN
    · intro v hv
      rw [alookup_ainsert_self, ovbnos_some, TsVbuuid.mem_getVbnos_filter] at hv
      rw [alookup_ainsert_self, ovbnos_some, TsVbuuid.getVbnos_append,
        List.mem_append]
      rintro (hc | hc)
      · exact hRA v hv.1 hc
      · exact hv.2 (by simpa using hc)
    · intro v hv
      rw [alookup_ainsert_self, ovbnos_some, TsVbuuid.mem_getVbnos_filter] at hv
      exact hRR v hv.1
    · intro v hv
      rw [alookup_ainsert_self, ovbnos_some, TsVbuuid.getVbnos_append,
        List.mem_append] at hv
      rcases hv with hv | hv
      · exact hAR v hv
      · rw [List.mem_singleton.mp hv]
        exact hRR vbno hvno
  · exact bucketOK_congr (alookup_ainsert_ne _ _ _ _ hb)
      (alookup_ainsert_ne _ _ _ _ hb) rfl (hInv b2)

theorem FeedInv_reqMoveRoll {feed : Feed} {bucket : String}
    {reqTs rollTs : TsVbuuid} {vbno s u a' b' : Nat} {bk : List GoVal}
    (hrq : alookup feed.reqTss bucket = some reqTs)
    (hrll : alookup feed.rollTss bucket = some rollTs)
    (hvno : vbno ∈ reqTs.getVbnos) (hInv : FeedInv feed) :
    FeedInv { feed with
      reqTss := ainsert feed.reqTss bucket (reqTs.filterByVbuckets [vbno])
      rollTss := ainsert feed.rollTss bucket (rollTs.append vbno s u a' b')
      backch := bk } := by
  intro b2
  obtain ⟨hdomA, hdomR, hN, hRA, hRR, hAR⟩ := hInv b2
  by_cases hb : b2 = bucket
  · subst hb
    rw [hrq] at hdomA hdomR hN hRA hRR
    rw [hrll] at hRR hAR
    refine ⟨?_, ?_, ?_, ?_, ?_, ?_⟩
    · show (alookup feed.actTss b2).isSome = (alookup (ainsert _ _ _) b2).isSome
      rw [alookup_ainsert_self]
      exact hdomA
    · rw [alookup_ainsert_self, alookup_ainsert_self]
      rfl
    · rw [alookup_ainsert_self, ovbnos_some]
      exact TsVbuuid.nodup_filter _ hN
    · intro v hv
      rw [alookup_ainsert_self, ovbnos_some, TsVbuuid.mem_getVbnos_filter] at hv
      exact hRA v hv.1
    · intro v hv
      rw [alookup_ainsert_self, ovbnos_some, TsVbuuid.mem_getVbnos_filter] at hv
      rw [alookup_ainsert_self, ovbnos_some, TsVbuuid.getVbnos_append,
        List.mem_append]
      rintro (hc | hc)
      · exact hRR v hv.1 hc
      · exact hv.2 (by simpa using hc)
    · intro v hv
      rw [alookup_ainsert_self, ovbnos_some, TsVbuuid.getVbnos_append,
        List.mem_append]
      rintro (hc | hc)
      · exact hAR v hv hc
      · rw [List.mem_singleton.mp hc] at hv
        exact hRA vbno hvno hv
  · exact bucketOK_congr (alookup_ainsert_ne _ _ _ _ hb) rfl
      (alookup_ainsert_ne _ _ _ _ hb) (hInv b2)

theorem drainOne_inv {feed : Feed} (hInv : FeedInv feed) :
    FeedInv (drainOne feed) := by
  rcases hbc : feed.backch with _ | ⟨msg, rest⟩
  · simp only [drainOne, hbc]
    exact hInv
  cases msg with
  | slice xs =>
    simp only [drainOne, hbc]
    exact fun b => bucketOK_congr rfl rfl rfl (hInv b)
  | ctrl c =>
    cases c with
    | streamEnd bucket o st vbno =>
      simp only [drainOne, hbc]
      exact FeedInv_streamEnd (fun b => bucketOK_congr rfl rfl rfl (hInv b))
    | finKVData bucket =>
      simp only [drainOne, hbc]
      rcases hacl : alookup feed.actTss bucket with _ | actTs
      · simp only [hacl]
        exact fun b => bucketOK_congr rfl rfl rfl (hInv b)
      · simp only [hacl]
        split
        · exact cleanupBucket_inv (fun b => bucketOK_congr rfl rfl rfl (hInv b))
        · exact fun b => bucketOK_congr rfl rfl rfl (hInv b)
    | streamRequest bucket o st vbno vbuuid seqno =>
      simp only [drainOne, hbc]
      rcases hrq : alookup feed.reqTss bucket with _ | reqTs
      · simp only [hrq]
        exact fun b => bucketOK_congr rfl rfl rfl (hInv b)
      rcases hget : reqTs.get vbno with _ | e
      · simp only [hrq, hget]
        exact fun b => bucketOK_congr rfl rfl rfl (hInv b)
      have hvno : vbno ∈ reqTs.getVbnos := TsVbuuid.get_mem hget
      have hInv2 : FeedInv { feed with backch := rest } :=
        fun b => bucketOK_congr rfl rfl rfl (hInv b)
      cases st with
      | success =>
        simp only [hrq, hget]
        rcases hacl : alookup feed.actTss bucket with _ | actTs
        · simp only [hacl]
          exact FeedInv_reqFilter hrq hInv2
        · simp only [hacl]
          exact FeedInv_reqMoveAct hrq hacl hvno hInv2
      | rollback =>
        simp only [hrq, hget]
        rcases hrll : alookup feed.rollTss bucket with _ | rollTs
        · simp only [hrll]
          exact FeedInv_reqFilter hrq hInv2
        · simp only [hrll]
          exact FeedInv_reqMoveRoll hrq hrll hvno hInv2
      | notMyVbucket =>
        simp only [hrq, hget]
        exact FeedInv_reqFilter hrq hInv2
      | other code =>
        simp only [hrq, hget]
        exact FeedInv_reqFilter hrq hInv2

/-! ### Preservation across whole commands -/

theorem FeedInv_of_fields {f1 f2 : Feed}
    (h1 : f2.reqTss = f1.reqTss) (h2 : f2.actTss = f1.actTss)
    (h3 : f2.rollTss = f1.rollTss) (h : FeedInv f1) : FeedInv f2 :=
  fun b => bucketOK_congr (by rw [h1]) (by rw [h2]) (by rw [h3]) (h b)

theorem restartEndpoint_fields (env : Env) (feed : Feed) (raddr : String)
    (acc : Option ProjErr) :
    (restartEndpoint env feed raddr acc).1.reqTss = feed.reqTss ∧
    (restartEndpoint env feed raddr acc).1.actTss = feed.actTss ∧
    (restartEndpoint env feed raddr acc).1.rollTss = feed.rollTss ∧
    (restartEndpoint env feed raddr acc).1.backch = feed.backch := by
  rw [restartEndpoint]
  repeat' split
  all_goals exact ⟨rfl, rfl, rfl, rfl⟩

theorem restartEndpoints_fold (env : Env) :
    ∀ (raddrs : List String) (st : Feed × Option ProjErr),
      (raddrs.foldl (fun acc2 raddr => restartEndpoint env acc2.1 raddr acc2.2)
        st).1.reqTss = st.1.reqTss ∧
      (raddrs.foldl (fun acc2 raddr => restartEndpoint env acc2.1 raddr acc2.2)
        st).1.actTss = st.1.actTss ∧
      (raddrs.foldl (fun acc2 raddr => restartEndpoint env acc2.1 raddr acc2.2)
        st).1.rollTss = st.1.rollTss ∧
      (raddrs.foldl (fun acc2 raddr => restartEndpoint env acc2.1 raddr acc2.2)
        st).1.backch = st.1.backch := by
  intro raddrs
  induction raddrs with
  | nil => intro st; exact ⟨rfl, rfl, rfl, rfl⟩
  | cons r rest ih =>
    intro st
    obtain ⟨e1, e2, e3, e4⟩ := restartEndpoint_fields env st.1 r st.2
    obtain ⟨f1, f2, f3, f4⟩ := ih (restartEndpoint env st.1 r st.2)
    exact ⟨f1.trans e1, f2.trans e2, f3.trans e3, f4.trans e4⟩

theorem routersFold_fields (env : Env) :
    ∀ (routers : List (Nat × List String)) (st : Feed × Option ProjErr),
      (routers.foldl (fun acc r =>
        r.2.foldl (fun acc2 raddr => restartEndpoint env acc2.1 raddr acc2.2)
          acc) st).1.reqTss = st.1.reqTss ∧
      (routers.foldl (fun acc r =>
        r.2.foldl (fun acc2 raddr => restartEndpoint env acc2.1 raddr acc2.2)
          acc) st).1.actTss = st.1.actTss ∧
      (routers.foldl (fun acc r =>
        r.2.foldl (fun acc2 raddr => restartEndpoint env acc2.1 raddr acc2.2)
          acc) st).1.rollTss = st.1.rollTss ∧
      (routers.foldl (fun acc r =>
        r.2.foldl (fun acc2 raddr => restartEndpoint env acc2.1 raddr acc2.2)
          acc) st).1.backch = st.1.backch := by
  intro routers
  induction routers with
  | nil => intro st; exact ⟨rfl, rfl, rfl, rfl⟩
  | cons r rest ih =>
    intro st
    obtain ⟨e1, e2, e3, e4⟩ := restartEndpoints_fold env r.2 st
    obtain ⟨k1, k2, k3, k4⟩ := ih
      (r.2.foldl (fun acc2 raddr => restartEndpoint env acc2.1 raddr acc2.2) st)
    exact ⟨k1.trans e1, k2.trans e2, k3.trans e3, k4.trans e4⟩

theorem startEndpoints_fields (env : Env) (feed : Feed)
    (routers : List (Nat × List String)) :
    (startEndpoints env feed routers).1.reqTss = feed.reqTss ∧
    (startEndpoints env feed routers).1.actTss = feed.actTss ∧
    (startEndpoints env feed routers).1.rollTss = feed.rollTss ∧
    (startEndpoints env feed routers).1.backch = feed.backch := by
  have h := routersFold_fields env routers (feed, none)
  exact ⟨h.1, h.2.1, h.2.2.1, h.2.2.2⟩

theorem processSubscribers_fields (env : Env) (feed : Feed) (req : SubReq) :
    (processSubscribers env feed req).1.reqTss = feed.reqTss ∧
    (processSubscribers env feed req).1.actTss = feed.actTss ∧
    (processSubscribers env feed req).1.rollTss = feed.rollTss ∧
    (processSubscribers env feed req).1.backch = feed.backch := by
  rcases hs : feedSubscribers req with e | ⟨evals, routers⟩
  · simp [processSubscribers, hs]
  · rcases hse : startEndpoints env feed routers with ⟨feed1, e?⟩
    obtain ⟨e1, e2, e3, e4⟩ := startEndpoints_fields env feed routers
    rw [hse] at e1 e2 e3 e4
    cases e? with
    | some e =>
      simp only [processSubscribers, hs, hse]
      exact ⟨e1, e2, e3, e4⟩
    | none =>
      simp only [processSubscribers, hs, hse]
      exact ⟨e1, e2, e3, e4⟩

theorem repairEndpoints_fields (env : Env) (feed : Feed) (raddrs : List String) :
    (repairEndpoints env feed raddrs).1.reqTss = feed.reqTss ∧
    (repairEndpoints env feed raddrs).1.actTss = feed.actTss ∧
    (repairEndpoints env feed raddrs).1.rollTss = feed.rollTss ∧
    (repairEndpoints env feed raddrs).1.backch = feed.backch := by
  rw [repairEndpoints]
  exact restartEndpoints_fold env raddrs (feed, none)

theorem foldl_preserve {α γ : Type} (P : α → Prop) (f : α → γ → α) :
    ∀ (l : List γ), (∀ a c, c ∈ l → P a → P (f a c)) →
      ∀ a, P a → P (l.foldl f a) := by
  intro l
  induction l with
  | nil => exact fun _ a h => h
  | cons c rest ih =>
    intro hf a h
    exact ih (fun a' c' hc' => hf a' c' (List.mem_cons_of_mem _ hc')) _
      (hf a c (List.mem_cons_self _ _) h)

theorem runCmd_inv {env : Env} {opq : Nat} {c : Cmd} {feed : Feed}
    (hInv : FeedInv feed) (hok : stepOK feed (Step.cmd env opq c)) :
    FeedInv (runCmd env opq c feed) := by
  cases c with
  | startTopic req =>
    obtain ⟨hwf, hback⟩ := hok
    show FeedInv (start env feed req opq).1
    rw [start]
    rcases hps : processSubscribers env
        { feed with endpointType := req.endpointType } req.sub with ⟨feed1, e?⟩
    obtain ⟨e1, e2, e3, e4⟩ := processSubscribers_fields env
      { feed with endpointType := req.endpointType } req.sub
    rw [hps] at e1 e2 e3 e4
    have hInv1 : FeedInv feed1 := FeedInv_of_fields e1 e2 e3 hInv
    have hback1 : backchOK feed1.backch := by rw [e4]; exact hback
    cases e? with
    | some e => exact hInv1
    | none =>
      have := foldl_preserve
        (fun acc : Feed × List UpCall × Option ProjErr =>
          FeedInv acc.1 ∧ backchOK acc.1.backch)
        (fun acc ts0 => accumBucket acc (startOneBucket env opq acc.1 ts0))
        req.reqTimestamps
        (fun a ts0 hts0 ha => startOneBucket_inv ha.1 ha.2 (hwf ts0 hts0))
        (feed1, [], none) ⟨hInv1, hback1⟩
      exact this.1
  | restart req =>
    obtain ⟨hwf, hback⟩ := hok
    show FeedInv (restartVbuckets env feed req opq).1
    rw [restartVbuckets]
    obtain ⟨e1, e2, e3, e4⟩ := repairEndpoints_fields env feed
      (endpointRaddrs feed)
    have hInv1 : FeedInv (repairEndpoints env feed (endpointRaddrs feed)).1 :=
      FeedInv_of_fields e1 e2 e3 hInv
    have hback1 : backchOK (repairEndpoints env feed (endpointRaddrs feed)).1.backch := by
      rw [e4]
      exact hback
    have := foldl_preserve
      (fun acc : Feed × List UpCall × Option ProjErr =>
        FeedInv acc.1 ∧ backchOK acc.1.backch)
      (fun acc ts0 => accumBucket acc (restartOneBucket env opq acc.1 ts0))
      req.restartTimestamps
      (fun a ts0 hts0 ha => restartOneBucket_inv ha.1 ha.2 (hwf ts0 hts0))
      ((repairEndpoints env feed (endpointRaddrs feed)).1,
        (repairEndpoints env feed (endpointRaddrs feed)).2.1, none)
      ⟨hInv1, hback1⟩
    exact this.1
  | shutdownVb req =>
    show FeedInv (shutdownVbuckets env feed req opq).1
    rw [shutdownVbuckets]
    have := foldl_preserve
      (fun acc : Feed × List UpCall × Option ProjErr => FeedInv acc.1)
      (fun acc ts0 => accumBucket acc (shutdownOneBucket env opq acc.1 ts0))
      req.shutdownTimestamps
      (fun a ts0 _ ha => shutdownOneBucket_inv ha)
      (feed, [], none) hInv
    exact this
  | addB req =>
    obtain ⟨hback, hseq⟩ := hok
    show FeedInv (addBuckets env feed req opq).1
    rw [addBuckets]
    rcases hps : processSubscribers env feed req.sub with ⟨feed1, e?⟩
    obtain ⟨e1, e2, e3, e4⟩ := processSubscribers_fields env feed req.sub
    rw [hps] at e1 e2 e3 e4
    have hInv1 : FeedInv feed1 := FeedInv_of_fields e1 e2 e3 hInv
    have hback1 : backchOK feed1.backch := by rw [e4]; exact hback
    cases e? with
    | some e => exact hInv1
    | none =>
      rw [hps] at hseq
      have main : ∀ (l : List TsVbuuid)
          (acc : Feed × List UpCall × Option ProjErr),
          FeedInv acc.1 → backchOK acc.1.backch → addSeqOK env opq acc.1 l →
          FeedInv (l.foldl
            (fun acc ts0 => accumBucket acc (addOneBucket env opq acc.1 ts0))
            acc).1 := by
        intro l
        induction l with
        | nil => exact fun acc h _ _ => h
        | cons ts0 rest ih =>
          intro acc hI hB hS
          obtain ⟨hwf0, hdisj0, hS2⟩ := hS
          rw [List.foldl_cons]
          exact ih _ (addOneBucket_inv hI hB hwf0 hdisj0).1
            (addOneBucket_inv hI hB hwf0 hdisj0).2 hS2
      exact main req.reqTimestamps (feed1, [], none) hInv1 hback1 hseq
  | delB req =>
    show FeedInv (delBuckets feed req).1
    rw [delBuckets]
    exact foldl_preserve FeedInv (fun f b => cleanupBucket f b true)
      req.buckets (fun a c _ ha => cleanupBucket_inv ha) feed hInv
  | addInst req =>
    show FeedInv (addInstances env feed req).1
    rw [addInstances]
    rcases hps : processSubscribers env feed req.sub with ⟨feed1, e?⟩
    obtain ⟨e1, e2, e3, _⟩ := processSubscribers_fields env feed req.sub
    rw [hps] at e1 e2 e3
    have hInv1 : FeedInv feed1 := FeedInv_of_fields e1 e2 e3 hInv
    cases e? with
    | some e => exact hInv1
    | none =>
      have := foldl_preserve
        (fun acc : Feed × List UpCall × Option ProjErr => FeedInv acc.1)
        (fun acc p => if p.1 ∈ feed1.kvdata then
          (acc.1, acc.2.1 ++ [UpCall.addEngines p.1], acc.2.2)
          else (acc.1, acc.2.1, some ProjErr.invalidBucket))
        feed1.engines
        (fun a c _ ha => by
          by_cases hc : c.1 ∈ feed1.kvdata
          · simpa [hc] using ha
          · simpa [hc] using ha)
        (feed1, [], none) hInv1
      exact this
  | delInst req =>
    show FeedInv (delInstances feed req).1
    rw [delInstances]
    exact FeedInv_of_fields rfl rfl rfl hInv
  | repair req =>
    show FeedInv (repairEndpoints env feed req.endpoints).1
    obtain ⟨e1, e2, e3, _⟩ := repairEndpoints_fields env feed req.endpoints
    exact FeedInv_of_fields e1 e2 e3 hInv
  | shutdownFeed =>
    exact FeedInv_of_fields rfl rfl rfl hInv
  | query => exact hInv

theorem stepFn_inv {feed : Feed} {s : Step} (hInv : FeedInv feed)
    (hok : stepOK feed s) : FeedInv (stepFn feed s) := by
  cases s with
  | cmd env opq c => exact runCmd_inv hInv hok
  | drain => exact drainOne_inv hInv
  | post m => exact FeedInv_of_fields rfl rfl rfl hInv
  | tick => exact hInv

theorem initFeed_inv (topic : String) : FeedInv (initFeed topic) := by
  intro b
  refine ⟨rfl, rfl, ?_, ?_, ?_, ?_⟩ <;>
    simp [initFeed, alookup, ovbnos]

theorem reachableGood_inv {topic : String} {feed : Feed}
    (h : ReachableGood topic feed) : FeedInv feed := by
  induction h with
  | init => exact initFeed_inv topic
  | step s _ hok ih => exact stepFn_inv ih hok

/-! ### Concrete scenario material -/

/-- A request timestamp over the given partitions, seqno 100 + vbno,
branch 7, empty snapshot range. -/
def tsOf (b : String) (vs : List Nat) : TsVbuuid :=
  ⟨"default", b, vs.map (fun v => (v, ⟨100 + v, 7, 0, 0⟩))⟩

/-- A benign environment: topology exposes partitions 1, 2, 5, 6, every
collaborator call succeeds, each reconciler run may dequeue one message
before its deadline. -/
def demoEnv : Env :=
  { localVbuckets := fun _ _ => some [1, 2, 5, 6]
    bucketDetails := fun _ _ _ => true
    openFeed := fun _ _ => none
    startStreamsOk := fun _ _ => true
    endStreamsOk := fun _ _ => true
    cut := fun _ => 1
    equivalentIP := fun raddr _ => some raddr
    ping := fun _ => true
    factory := fun _ _ _ => some 0 }

/-- `demoEnv` with an immediately-firing reconciler deadline. -/
def demoEnv0 : Env :=
  { demoEnv with cut := fun _ => 0 }

/-- A trivially well-formed (empty) subscriber set. -/
def demoSub : SubReq :=
  ⟨some [], some []⟩

/-! ### C1 - partition disjointness -/

/-- The run refuting the unconditional invariant: a stream is started for
partition 1 and acknowledged, then `AddBuckets` re-requests partition 1
(the dropped active-partition filter) and times out, leaving partition 1
recorded both as active and as outstanding. -/
def c1Feed : Feed :=
  stepFn
    (stepFn
      (stepFn (initFeed "t")
        (Step.post (CtrlVal.streamRequest "b" 7 McdStatus.success 1 5 100)))
      (Step.cmd demoEnv 7 (Cmd.startTopic ⟨"tcp", [tsOf "b" [1]], demoSub⟩)))
    (Step.cmd demoEnv0 9 (Cmd.addB ⟨[tsOf "b" [1]], demoSub⟩))

/-- C1 counterexample: a reachable state in which partition 1 sits in both
`reqTs["b"]` and `actTs["b"]`, so the claimed pairwise disjointness fails
after an actor turn.  The turn that breaks it is an `AddBuckets` command
whose reconciler times out, because `addBuckets` discards the result of
filtering the request timestamp by the active partitions. -/
theorem disjointness_can_break :
    ReachableAny "t" c1Feed ∧ ¬ FeedDisjoint c1Feed := by
  constructor
  · exact ReachableAny.step _ (ReachableAny.step _
      (ReachableAny.step _ ReachableAny.init))
  · intro h
    have h1 : 1 ∈ ovbnos (alookup c1Feed.reqTss "b") := by decide
    have h2 : 1 ∈ ovbnos (alookup c1Feed.actTss "b") := by decide
    exact (h "b").2.1 1 h1 h2

/-- C1 (amended): after every actor turn of a run whose requests carry
duplicate-free timestamps, whose back channel never holds two
stream-request results for the same (bucket, opaque, partition) at a
stream-opening command, and whose `AddBuckets` commands only name
partitions disjoint from the bucket's active set at the moment the bucket
is processed, the partition sets of `reqTs[b]`, `actTs[b]` and
`rollTs[b]` are pairwise disjoint and no partition appears twice within
`reqTs[b]`. -/
theorem reachable_partition_disjointness {topic : String} {feed : Feed}
    (h : ReachableGood topic feed) : FeedDisjoint feed :=
  fun b => (reachableGood_inv h b).2.2

/-- The witness run for the amended invariant: a post followed by a
successful `Start`. -/
def c1wFeed : Feed :=
  stepFn
    (stepFn (initFeed "t")
      (Step.post (CtrlVal.streamRequest "b" 7 McdStatus.success 1 5 100)))
    (Step.cmd demoEnv 7 (Cmd.startTopic ⟨"tcp", [tsOf "b" [1]], demoSub⟩))

theorem reachable_partition_disjointness_witness : FeedDisjoint c1wFeed :=
  reachable_partition_disjointness
    (ReachableGood.step _
      (ReachableGood.step _ ReachableGood.init trivial)
      ⟨by simp only [tsWF]; decide, by simp only [backchOK]; decide⟩)

/-! ### C2 - re-enqueued feedback -/

/-- A stream-request result for a bucket the reconciler is not waiting
for. -/
def c2Msg : CtrlVal :=
  CtrlVal.streamRequest "x" 9 McdStatus.success 1 2 3

/-- A feed holding an outstanding request for bucket `x`, partition 1,
with `c2Msg` queued. -/
def c2Feed : Feed :=
  { initFeed "t" with
    reqTss := [("x", ⟨"default", "x", [(1, ⟨10, 7, 0, 0⟩)]⟩)]
    actTss := [("x", ⟨"default", "x", []⟩)]
    rollTss := [("x", ⟨"default", "x", []⟩)]
    backch := [GoVal.ctrl c2Msg] }

/-- A reconciler run for bucket `b` that dequeues `c2Msg`, holds it, and
times out. -/
def c2Run : TsVbuuid × TsVbuuid × TsVbuuid × Option ProjErr × List GoVal :=
  waitStreamRequests demoEnv 7 "default" "b" (tsOf "b" [1]) c2Feed.backch

/-- C2: the reconciler re-enqueues the held message wrapped in an extra
one-element slice, so the next back-channel turn no longer recognises it:
draining the re-enqueued form leaves `reqTs` unchanged (the message is
dropped as unrecognised), while draining the original message would have
moved partition 1 out of `reqTs["x"]`. -/
theorem waitOnFeedback_rewraps :
    c2Run.2.2.2.2 = [GoVal.slice [GoVal.ctrl c2Msg]] ∧
    (drainOne { c2Feed with backch := c2Run.2.2.2.2 }).reqTss = c2Feed.reqTss ∧
    (drainOne c2Feed).reqTss ≠ c2Feed.reqTss := by
  refine ⟨rfl, rfl, ?_⟩
  decide

/-! ### C3 - AddBuckets and active partitions -/

/-- A feed with partition 1 active on bucket `b`. -/
def c3Feed : Feed :=
  { initFeed "t" with
    reqTss := [("b", tsOf "b" [])]
    actTss := [("b", tsOf "b" [1])]
    rollTss := [("b", tsOf "b" [])]
    feeders := ["b"]
    kvdata := ["b"] }

/-- Whether some upstream `StartVbStreams` call in the trace carries
partition 1. -/
def requestsVbno1 (calls : List UpCall) : Bool :=
  calls.any (fun c =>
    match c with
    | UpCall.startVb _ t => t.hasVbno 1
    | _ => false)

/-- C3: `addBuckets` issues `StartVbStreams` still carrying the already
active partition 1 (the result of the active-partition filter is
discarded), while `start` on the same state and timestamps filters it
out - so AddBuckets does not behave as Start for the listed bucket. -/
theorem addBuckets_rerequests_active :
    requestsVbno1 (addBuckets demoEnv0 c3Feed ⟨[tsOf "b" [1, 2]], demoSub⟩ 9).2.1
      = true ∧
    requestsVbno1 (start demoEnv0 c3Feed ⟨"tcp", [tsOf "b" [1, 2]], demoSub⟩ 9).2.1
      = false := by
  decide

/-! ### C4 - RestartVbuckets and the outstanding set -/

/-- A feed with partition 5 outstanding on bucket `b`. -/
def c4Feed : Feed :=
  { initFeed "t" with
    reqTss := [("b", tsOf "b" [5])]
    actTss := [("b", tsOf "b" [])]
    rollTss := [("b", tsOf "b" [])]
    feeders := ["b"]
    kvdata := ["b"] }

/-- C4: after `RestartVbuckets` for partition 6 (reconciler timing out, so
nothing is answered), the previously outstanding partition 5 has vanished
from `reqTs["b"]` - the source computes `ts.Union(ts)` instead of
`ts.Union(reqTs)`, so the claimed `reqTs[b] := reqTs[b] ∪ ts` fails. -/
theorem restartVbuckets_drops_outstanding :
    5 ∈ ovbnos (alookup c4Feed.reqTss "b") ∧
    5 ∉ ovbnos (alookup
      (restartVbuckets demoEnv0 c4Feed ⟨[tsOf "b" [6]]⟩ 9).1.reqTss "b") ∧
    6 ∈ ovbnos (alookup
      (restartVbuckets demoEnv0 c4Feed ⟨[tsOf "b" [6]]⟩ 9).1.reqTss "b") := by
  decide

/-! ### C9 - RepairEndpoints error reporting -/

/-- C9: `repairEndpoints` always returns nil - the aggregated transport
errors assigned to the named return value are discarded by the final
`return nil` - even on an input whose address lookup fails (the failed
address is also left unregistered). -/
theorem repairEndpoints_swallows_errors :
    (∀ (env : Env) (feed : Feed) (raddrs : List String),
      (repairEndpoints env feed raddrs).2.2 = none) ∧
    (repairEndpoints { demoEnv with equivalentIP := fun _ _ => none }
      (initFeed "t") ["a"]).2.2 = none ∧
    alookup (repairEndpoints { demoEnv with equivalentIP := fun _ _ => none }
      (initFeed "t") ["a"]).1.endpoints "a" = none := by
  refine ⟨fun env feed raddrs => rfl, rfl, rfl⟩

/-! ### C10 - reconcilers with an empty expected set -/

/-- C10: with no expected partitions, both reconcilers return immediately
with empty outputs and no error, leaving the back channel untouched. -/
theorem waitStream_empty_expected {env : Env} {opq : Nat}
    {pooln bucketn : String} {ts : TsVbuuid} {backch : List GoVal}
    (h : ts.getVbnos = []) :
    waitStreamRequests env opq pooln bucketn ts backch =
      (⟨ts.pool, ts.bucket, []⟩, ⟨ts.pool, ts.bucket, []⟩,
        ⟨ts.pool, ts.bucket, []⟩, none, backch) ∧
    waitStreamEnds env opq bucketn ts backch =
      (⟨ts.pool, ts.bucket, []⟩, ⟨ts.pool, ts.bucket, []⟩, none, backch) := by
  have hemp : ts.getVbnos.isEmpty = true := by simp [h]
  constructor
  · simp [waitStreamRequests, hemp]
  · simp [waitStreamEnds, hemp]

theorem waitStream_empty_expected_witness :
    waitStreamRequests demoEnv 3 "p" "b" ⟨"p", "b", []⟩ [] =
      (⟨"p", "b", []⟩, ⟨"p", "b", []⟩, ⟨"p", "b", []⟩, none, []) ∧
    waitStreamEnds demoEnv 3 "b" ⟨"p", "b", []⟩ [] =
      (⟨"p", "b", []⟩, ⟨"p", "b", []⟩, none, []) :=
  waitStream_empty_expected rfl

/-! ### C5 - the between-commands streamRequestResult turn -/

/-- A feed whose outstanding entry for (b, 1) carries snapshot range
(5, 9), with a SUCCESS result queued. -/
def c5Feed : Feed :=
  { initFeed "t" with
    reqTss := [("b", ⟨"default", "b", [(1, ⟨10, 7, 5, 9⟩)]⟩)]
    actTss := [("b", ⟨"default", "b", []⟩)]
    rollTss := [("b", ⟨"default", "b", []⟩)]
    backch := [GoVal.ctrl (CtrlVal.streamRequest "b" 3 McdStatus.success 1 77 99)] }

/-- C5 counterexample: the entry appended to `actTs["b"]` carries the
snapshot range (5, 9) stored in the `reqTs` entry, not (0, 0) as
claimed. -/
theorem drain_snapshot_from_reqTs :
    alookup (drainOne c5Feed).actTss "b" =
      some ⟨"default", "b", [(1, ⟨10, 7, 5, 9⟩)]⟩ ∧
    ¬ alookup (drainOne c5Feed).actTss "b" =
      some ⟨"default", "b", [(1, ⟨10, 7, 0, 0⟩)]⟩ := by
  decide

/-- C5 (amended): for a `streamRequestResult` processed between commands,
if the partition has no entry in `reqTs[bucket]` the message is dropped
and no state changes; otherwise the partition is removed from
`reqTs[bucket]` and, on ROLLBACK, (partition, rollback-seqno,
stored-branch, stored-snapshot) is appended to `rollTs[bucket]`, on
SUCCESS (partition, stored-seqno, stored-branch, stored-snapshot) is
appended to `actTs[bucket]`, and on any other status nothing is
appended. -/
theorem drain_streamRequest_spec {feed : Feed} {bucket : String} {o : Nat}
    {status : McdStatus} {vbno vbuuid seqno : Nat} {rest : List GoVal}
    (hbc : feed.backch =
      GoVal.ctrl (CtrlVal.streamRequest bucket o status vbno vbuuid seqno)
        :: rest) :
    ((alookup feed.reqTss bucket).bind (fun reqTs => reqTs.get vbno) = none →
      drainOne feed = { feed with backch := rest }) ∧
    (∀ reqTs e, alookup feed.reqTss bucket = some reqTs →
      reqTs.get vbno = some e →
      alookup (drainOne feed).reqTss bucket =
        some (reqTs.filterByVbuckets [vbno]) ∧
      (∀ actTs, status = McdStatus.success →
        alookup feed.actTss bucket = some actTs →
        alookup (drainOne feed).actTss bucket =
          some (actTs.append vbno e.seqno e.vbuuid e.sStart e.sEnd)) ∧
      (∀ rollTs, status = McdStatus.rollback →
        alookup feed.rollTss bucket = some rollTs →
        alookup (drainOne feed).rollTss bucket =
          some (rollTs.append vbno seqno e.vbuuid e.sStart e.sEnd)) ∧
      (status ≠ McdStatus.success → status ≠ McdStatus.rollback →
        (drainOne feed).actTss = feed.actTss ∧
        (drainOne feed).rollTss = feed.rollTss)) := by
  constructor
  · intro hnone
    rcases hrq : alookup feed.reqTss bucket with _ | reqTs
    · simp only [drainOne, hbc, hrq]
    · rw [hrq] at hnone
      simp only [Option.some_bind] at hnone
      simp only [drainOne, hbc, hrq, hnone]
  · intro reqTs e hrq hget
    refine ⟨?_, ?_, ?_, ?_⟩
    · cases status with
      | success =>
        rcases hacl : alookup feed.actTss bucket with _ | actTs <;>
          simp only [drainOne, hbc, hrq, hget, hacl] <;>
          exact alookup_ainsert_self ..
      | rollback =>
        rcases hrll : alookup feed.rollTss bucket with _ | rollTs <;>
          simp only [drainOne, hbc, hrq, hget, hrll] <;>
          exact alookup_ainsert_self ..
      | notMyVbucket =>
        simp only [drainOne, hbc, hrq, hget]
        exact alookup_ainsert_self ..
      | other code =>
        simp only [drainOne, hbc, hrq, hget]
        exact alookup_ainsert_self ..
    · intro actTs hst hacl
      subst hst
      simp only [drainOne, hbc, hrq, hget, hacl]
      exact alookup_ainsert_self ..
    · intro rollTs hst hrll
      subst hst
      simp only [drainOne, hbc, hrq, hget, hrll]
      exact alookup_ainsert_self ..
    · intro h1 h2
      cases status with
      | success => exact absurd rfl h1
      | rollback => exact absurd rfl h2
      | notMyVbucket =>
        constructor <;> simp only [drainOne, hbc, hrq, hget]
      | other code =>
        constructor <;> simp only [drainOne, hbc, hrq, hget]

theorem drain_streamRequest_spec_witness :
    alookup (drainOne c5Feed).reqTss "b" =
      some (TsVbuuid.filterByVbuckets ⟨"default", "b", [(1, ⟨10, 7, 5, 9⟩)]⟩ [1]) ∧
    alookup (drainOne c5Feed).actTss "b" =
      some (TsVbuuid.append ⟨"default", "b", []⟩ 1 10 7 5 9) := by
  have h := @drain_streamRequest_spec c5Feed "b" 3 McdStatus.success 1 77 99
    [] rfl
  obtain ⟨hreq, hact, _, _⟩ :=
    h.2 ⟨"default", "b", [(1, ⟨10, 7, 5, 9⟩)]⟩ ⟨10, 7, 5, 9⟩ rfl rfl
  exact ⟨hreq, hact ⟨"default", "b", []⟩ rfl rfl⟩

/-! ### C8 - malformed subscriber sets -/

theorem feedSubscribers_error {req : SubReq} {e : ProjErr}
    (h : feedSubscribers req = Except.error e) :
    e = ProjErr.inconsistentFeed := by
  cases hev : req.evaluators with
  | none =>
    simp only [feedSubscribers, hev] at h
    exact (Except.error.inj h).symm
  | some evals =>
    cases hrt : req.routers with
    | none =>
      simp only [feedSubscribers, hev, hrt] at h
      exact (Except.error.inj h).symm
    | some routers =>
      simp only [feedSubscribers, hev, hrt] at h
      by_cases hlen : evals.length ≠ routers.length
      · rw [if_pos hlen] at h
        exact (Except.error.inj h).symm
      · rw [if_neg hlen] at h
        by_cases hany : evals.any (fun e2 => (alookup routers e2.1).isNone)
        · rw [if_pos hany] at h
          exact (Except.error.inj h).symm
        · rw [if_neg hany] at h
          cases h

/-- A feed with a non-default endpoint type, and a Start request whose
evaluator extraction fails while asking for endpoint type `t1`. -/
def c8Feed : Feed :=
  { initFeed "t" with endpointType := "t0" }

/-- A subscriber set whose evaluator extraction fails. -/
def c8Sub : SubReq :=
  ⟨none, some []⟩

def c8Req : MutationTopicRequest :=
  ⟨"t1", [], c8Sub⟩

/-- C8 counterexample: a Start with a malformed subscriber set fails with
`InconsistentFeed` but still overwrites the feed's `endpointType` - the
source assigns it from the request before validating the subscribers - so
"no field of the feed changes" is false. -/
theorem start_mutates_endpointType :
    (start demoEnv c8Feed c8Req 9).2.2 = some ProjErr.inconsistentFeed ∧
    (start demoEnv c8Feed c8Req 9).1.endpointType = "t1" ∧
    ¬ c8Feed.endpointType = "t1" := by
  refine ⟨rfl, rfl, ?_⟩
  decide

/-- C8 (amended): with a malformed subscriber set the command fails with
`InconsistentFeed` before touching any bucket; `AddBuckets` and
`AddInstances` leave the feed completely unchanged, while `Start`
additionally (and only) overwrites `endpointType` from the request before
the validation. -/
theorem malformed_subscribers_no_side_effect {env : Env} {feed : Feed}
    {req : MutationTopicRequest} {areq : AddBucketsRequest}
    {ireq : AddInstancesRequest} {opq : Nat} {e1 e2 e3 : ProjErr}
    (h1 : feedSubscribers req.sub = Except.error e1)
    (h2 : feedSubscribers areq.sub = Except.error e2)
    (h3 : feedSubscribers ireq.sub = Except.error e3) :
    start env feed req opq =
      ({ feed with endpointType := req.endpointType }, [],
        some ProjErr.inconsistentFeed) ∧
    addBuckets env feed areq opq = (feed, [], some ProjErr.inconsistentFeed) ∧
    addInstances env feed ireq = (feed, [], some ProjErr.inconsistentFeed) := by
  rw [feedSubscribers_error h1] at h1
  rw [feedSubscribers_error h2] at h2
  rw [feedSubscribers_error h3] at h3
  refine ⟨?_, ?_, ?_⟩
  · simp only [start, processSubscribers, h1]
  · simp only [addBuckets, processSubscribers, h2]
  · simp only [addInstances, processSubscribers, h3]

/-! ### C7 - ShutdownVbuckets with a missing bucket -/

theorem bucketFeed_calls {env : Env} {f : Feed} {opq : Nat} {stop strt : Bool}
    {reqTs : TsVbuuid} :
    ∀ c ∈ (bucketFeed env f opq stop strt reqTs).1,
      c = UpCall.endVb opq reqTs ∨ c = UpCall.startVb opq reqTs := by
  intro c hc
  rw [bucketFeed] at hc
  repeat' split at hc
  all_goals
    try (rcases hof : env.openFeed reqTs.pool reqTs.bucket with _ | e2 <;>
      rw [hof] at hc)
  all_goals simp_all

theorem shutdownOneBucket_missing {env : Env} {opq : Nat} {f : Feed}
    {ts0 : TsVbuuid}
    (hmiss : alookup f.actTss ts0.bucket = none ∨
      alookup f.rollTss ts0.bucket = none ∨
      alookup f.reqTss ts0.bucket = none)
    (henv : (env.localVbuckets ts0.pool ts0.bucket).isSome) :
    shutdownOneBucket env opq f ts0 = (f, [], some ProjErr.invalidBucket) := by
  rcases hloc : env.localVbuckets ts0.pool ts0.bucket with _ | vbnos
  · rw [hloc] at henv
    cases henv
  · rcases ha : alookup f.actTss ts0.bucket with _ | a <;>
      rcases hl : alookup f.rollTss ts0.bucket with _ | l <;>
      rcases hq : alookup f.reqTss ts0.bucket with _ | q <;>
      simp only [shutdownOneBucket, hloc, ha, hl, hq] <;>
      first
        | rfl
        | (exfalso; rcases hmiss with hm | hm | hm <;> simp_all)

theorem shutdownOneBucket_preserves {env : Env} {opq : Nat} {f : Feed}
    {ts' : TsVbuuid} {b : String}
    (hmiss : alookup f.actTss b = none ∨ alookup f.rollTss b = none ∨
      alookup f.reqTss b = none) :
    alookup (shutdownOneBucket env opq f ts').1.reqTss b = alookup f.reqTss b ∧
    alookup (shutdownOneBucket env opq f ts').1.actTss b = alookup f.actTss b ∧
    alookup (shutdownOneBucket env opq f ts').1.rollTss b = alookup f.rollTss b ∧
    (shutdownOneBucket env opq f ts').1.feeders = f.feeders ∧
    (shutdownOneBucket env opq f ts').1.kvdata = f.kvdata ∧
    (shutdownOneBucket env opq f ts').1.engines = f.engines ∧
    (∀ o2 ts2, UpCall.endVb o2 ts2 ∈ (shutdownOneBucket env opq f ts').2.1 →
      ts2.bucket ≠ b) := by
  by_cases htb : ts'.bucket = b
  · subst htb
    rcases hloc : env.localVbuckets ts'.pool ts'.bucket with _ | vbnos
    · have hres : shutdownOneBucket env opq f ts' =
          (f, [], some ProjErr.clusterInfo) := by
        simp only [shutdownOneBucket, hloc]
      rw [hres]
      exact ⟨rfl, rfl, rfl, rfl, rfl, rfl, by simp⟩
    · have hres : shutdownOneBucket env opq f ts' =
          (f, [], some ProjErr.invalidBucket) := by
        rcases ha : alookup f.actTss ts'.bucket with _ | a <;>
          rcases hl : alookup f.rollTss ts'.bucket with _ | l <;>
          rcases hq : alookup f.reqTss ts'.bucket with _ | q <;>
          simp only [shutdownOneBucket, hloc, ha, hl, hq] <;>
          first
            | rfl
            | (exfalso; rcases hmiss with hm | hm | hm <;> simp_all)
      rw [hres]
      exact ⟨rfl, rfl, rfl, rfl, rfl, rfl, by simp⟩
  · have hne : b ≠ ts'.bucket := fun h => htb h.symm
    rcases hloc : env.localVbuckets ts'.pool ts'.bucket with _ | vbnos
    · have hres : shutdownOneBucket env opq f ts' =
          (f, [], some ProjErr.clusterInfo) := by
        simp only [shutdownOneBucket, hloc]
      rw [hres]
      exact ⟨rfl, rfl, rfl, rfl, rfl, rfl, by simp⟩
    rcases ha : alookup f.actTss ts'.bucket with _ | a
    · have hres : shutdownOneBucket env opq f ts' =
          (f, [], some ProjErr.invalidBucket) := by
        simp only [shutdownOneBucket, hloc, ha]
      rw [hres]
      exact ⟨rfl, rfl, rfl, rfl, rfl, rfl, by simp⟩
    rcases hl : alookup f.rollTss ts'.bucket with _ | l
    · have hres : shutdownOneBucket env opq f ts' =
          (f, [], some ProjErr.invalidBucket) := by
        simp only [shutdownOneBucket, hloc, ha, hl]
      rw [hres]
      exact ⟨rfl, rfl, rfl, rfl, rfl, rfl, by simp⟩
    rcases hq : alookup f.reqTss ts'.bucket with _ | q
    · have hres : shutdownOneBucket env opq f ts' =
          (f, [], some ProjErr.invalidBucket) := by
        simp only [shutdownOneBucket, hloc, ha, hl, hq]
      rw [hres]
      exact ⟨rfl, rfl, rfl, rfl, rfl, rfl, by simp⟩
    rcases hbf : bucketFeed env f opq true false (ts'.selectByVbuckets vbnos) with
      ⟨calls, e?⟩
    have hcalls : ∀ o2 ts2, UpCall.endVb o2 ts2 ∈ calls → ts2.bucket ≠ b := by
      intro o2 ts2 hmem
      have hin := @bucketFeed_calls env f opq true false
        (ts'.selectByVbuckets vbnos)
        (UpCall.endVb o2 ts2) (by rw [hbf]; exact hmem)
      rcases hin with h | h
      · cases h
        exact htb
      · cases h
    cases e? with
    | some e =>
      have hres : shutdownOneBucket env opq f ts' = (f, calls, some e) := by
        simp only [shutdownOneBucket, hloc, ha, hl, hq, hbf]
      rw [hres]
      exact ⟨rfl, rfl, rfl, rfl, rfl, rfl, hcalls⟩
    | none =>
      refine ⟨?_, ?_, ?_, ?_, ?_, ?_, ?_⟩ <;>
        simp only [shutdownOneBucket, hloc, ha, hl, hq, hbf]
      all_goals first
        | exact alookup_ainsert_ne _ _ _ _ hne
        | rfl
        | exact hcalls

theorem malformed_subscribers_witness :
    start demoEnv c8Feed c8Req 9 =
      ({ c8Feed with endpointType := "t1" }, [],
        some ProjErr.inconsistentFeed) ∧
    addBuckets demoEnv c8Feed ⟨[], c8Sub⟩ 9 =
      (c8Feed, [], some ProjErr.inconsistentFeed) ∧
    addInstances demoEnv c8Feed ⟨c8Sub⟩ =
      (c8Feed, [], some ProjErr.inconsistentFeed) :=
  malformed_subscribers_no_side_effect rfl rfl rfl

/-- The step function of the `shutdownVbuckets` bucket loop, named so the
fold can be reasoned about. -/
def shutdownStep (env : Env) (opq : Nat)
    (acc : Feed × List UpCall × Option ProjErr) (ts0 : TsVbuuid) :
    Feed × List UpCall × Option ProjErr :=
  accumBucket acc (shutdownOneBucket env opq acc.1 ts0)

theorem shutdownVbuckets_eq_fold (env : Env) (feed : Feed)
    (req : ShutdownVbucketsRequest) (opq : Nat) :
    shutdownVbuckets env feed req opq =
      req.shutdownTimestamps.foldl (shutdownStep env opq) (feed, [], none) :=
  rfl

/-- State of the C7 fold analysis: all per-bucket state of `b` agrees with
the pre-call feed and no `EndVbStreams` upcall for `b` has accumulated. -/
def shutdownUntouched (feed : Feed) (b : String)
    (acc : Feed × List UpCall × Option ProjErr) : Prop :=
  alookup acc.1.actTss b = alookup feed.actTss b ∧
  alookup acc.1.rollTss b = alookup feed.rollTss b ∧
  alookup acc.1.reqTss b = alookup feed.reqTss b ∧
  acc.1.feeders = feed.feeders ∧
  acc.1.kvdata = feed.kvdata ∧
  acc.1.engines = feed.engines ∧
  (∀ o2 ts2, UpCall.endVb o2 ts2 ∈ acc.2.1 → ts2.bucket ≠ b)

theorem shutdownStep_untouched {env : Env} {opq : Nat} {feed : Feed}
    {b : String}
    (hmiss : alookup feed.actTss b = none ∨ alookup feed.rollTss b = none ∨
      alookup feed.reqTss b = none)
    (acc : Feed × List UpCall × Option ProjErr) (ts' : TsVbuuid)
    (ha : shutdownUntouched feed b acc) :
    shutdownUntouched feed b (shutdownStep env opq acc ts') := by
  obtain ⟨h1, h2, h3, h4, h5, h6, h7⟩ := ha
  have hmiss' : alookup acc.1.actTss b = none ∨
      alookup acc.1.rollTss b = none ∨ alookup acc.1.reqTss b = none := by
    rcases hmiss with h | h | h
    · exact Or.inl (h1.trans h)
    · exact Or.inr (Or.inl (h2.trans h))
    · exact Or.inr (Or.inr (h3.trans h))
  obtain ⟨p1, p2, p3, p4, p5, p6, p7⟩ :=
    @shutdownOneBucket_preserves env opq acc.1 ts' b hmiss'
  refine ⟨p2.trans h1, p3.trans h2, p1.trans h3, p4.trans h4, p5.trans h5,
    p6.trans h6, ?_⟩
  intro o2 ts2 hmem
  rcases List.mem_append.mp hmem with h | h
  · exact h7 o2 ts2 h
  · exact p7 o2 ts2 h

theorem shutdownStep_err {env : Env} {opq : Nat}
    (acc : Feed × List UpCall × Option ProjErr) (ts' : TsVbuuid)
    (ha : acc.2.2 ≠ none) : (shutdownStep env opq acc ts').2.2 ≠ none := by
  rcases hr : (shutdownOneBucket env opq acc.1 ts').2.2 with _ | e
  · simpa [shutdownStep, accumBucket, hr] using ha
  · simp [shutdownStep, accumBucket, hr]

/-- C7: a `ShutdownVbuckets` request listing a bucket `b` for which any of
`actTss[b]`, `rollTss[b]`, `reqTss[b]` is absent reports `invalidBucket`
for that bucket (its loop iteration returns exactly that error with no
upstream calls and an unchanged feed, and the whole call returns a non-nil
error), issues no `EndVbStreams` for `b`, and leaves all per-bucket state
of `b` (the three timestamp maps at `b` and the feeders/kvdata/engines
fields) unchanged. -/
theorem shutdownVbuckets_invalidBucket {env : Env} {feed : Feed}
    {req : ShutdownVbucketsRequest} {opq : Nat} {b : String} {ts0 : TsVbuuid}
    (hb : ts0 ∈ req.shutdownTimestamps) (hbt : ts0.bucket = b)
    (henv : (env.localVbuckets ts0.pool ts0.bucket).isSome)
    (hmiss : alookup feed.actTss b = none ∨ alookup feed.rollTss b = none ∨
      alookup feed.reqTss b = none) :
    (∀ f' : Feed,
      (alookup f'.actTss b = none ∨ alookup f'.rollTss b = none ∨
        alookup f'.reqTss b = none) →
      shutdownOneBucket env opq f' ts0 = (f', [], some ProjErr.invalidBucket)) ∧
    (shutdownVbuckets env feed req opq).2.2 ≠ none ∧
    (∀ o2 ts2, UpCall.endVb o2 ts2 ∈ (shutdownVbuckets env feed req opq).2.1 →
      ts2.bucket ≠ b) ∧
    alookup (shutdownVbuckets env feed req opq).1.actTss b =
      alookup feed.actTss b ∧
    alookup (shutdownVbuckets env feed req opq).1.rollTss b =
      alookup feed.rollTss b ∧
    alookup (shutdownVbuckets env feed req opq).1.reqTss b =
      alookup feed.reqTss b ∧
    (shutdownVbuckets env feed req opq).1.feeders = feed.feeders ∧
    (shutdownVbuckets env feed req opq).1.kvdata = feed.kvdata ∧
    (shutdownVbuckets env feed req opq).1.engines = feed.engines := by
  subst hbt
  obtain ⟨l1, l2, hsplit⟩ := List.append_of_mem hb
  have hfold : shutdownVbuckets env feed req opq =
      List.foldl (shutdownStep env opq)
        (shutdownStep env opq
          (List.foldl (shutdownStep env opq) (feed, [], none) l1) ts0) l2 := by
    rw [shutdownVbuckets_eq_fold, hsplit, List.foldl_append, List.foldl_cons]
  have h1 : shutdownUntouched feed ts0.bucket
      (List.foldl (shutdownStep env opq) (feed, [], none) l1) :=
    foldl_preserve _ _ l1
      (fun a c _ ha => shutdownStep_untouched hmiss a c ha)
      (feed, [], none)
      ⟨rfl, rfl, rfl, rfl, rfl, rfl,
        fun o2 ts2 h => absurd h (List.not_mem_nil _)⟩
  obtain ⟨acc1, hacc1⟩ :
      ∃ acc1, List.foldl (shutdownStep env opq) (feed, [], none) l1 = acc1 :=
    ⟨_, rfl⟩
  rw [hacc1] at h1 hfold
  have hm1 : alookup acc1.1.actTss ts0.bucket = none ∨
      alookup acc1.1.rollTss ts0.bucket = none ∨
      alookup acc1.1.reqTss ts0.bucket = none := by
    rcases hmiss with h | h | h
    · exact Or.inl (h1.1.trans h)
    · exact Or.inr (Or.inl (h1.2.1.trans h))
    · exact Or.inr (Or.inr (h1.2.2.1.trans h))
  have hstep : shutdownStep env opq acc1 ts0 =
      (acc1.1, acc1.2.1, some ProjErr.invalidBucket) := by
    simp only [shutdownStep, shutdownOneBucket_missing hm1 henv, accumBucket,
      List.append_nil]
  rw [hstep] at hfold
  have hstep0 : shutdownUntouched feed ts0.bucket
      (acc1.1, acc1.2.1, some ProjErr.invalidBucket) := h1
  have h2 : shutdownUntouched feed ts0.bucket
      (List.foldl (shutdownStep env opq)
        (acc1.1, acc1.2.1, some ProjErr.invalidBucket) l2) :=
    foldl_preserve _ _ l2
      (fun a c _ ha => shutdownStep_untouched hmiss a c ha) _ hstep0
  have herr : (List.foldl (shutdownStep env opq)
      (acc1.1, acc1.2.1, some ProjErr.invalidBucket) l2).2.2 ≠ none :=
    foldl_preserve (fun acc => acc.2.2 ≠ none) _ l2
      (fun a c _ ha => shutdownStep_err a c ha) _ (by simp)
  refine ⟨fun f' hm => shutdownOneBucket_missing hm henv,
    ?_, ?_, ?_, ?_, ?_, ?_, ?_, ?_⟩
  all_goals rw [hfold]
  · exact herr
  · exact h2.2.2.2.2.2.2
  · exact h2.1
  · exact h2.2.1
  · exact h2.2.2.1
  · exact h2.2.2.2.1
  · exact h2.2.2.2.2.1
  · exact h2.2.2.2.2.2.1

/-! ### C6 - start followed by shutdown -/

/-- The back-channel queue of a fully successful stream-request phase: one
SUCCESS `controlStreamRequest` acknowledgement per requested partition, in
request order, echoing the entry's branch and sequence number. -/
def reqAcks (bucketn : String) (opq : Nat) (ps : List (Nat × TsEntry)) :
    List GoVal :=
  ps.map (fun p => GoVal.ctrl
    (CtrlVal.streamRequest bucketn opq McdStatus.success p.1 p.2.vbuuid
      p.2.seqno))

/-- The back-channel queue of a fully successful stream-end phase. -/
def endAcks (bucketn : String) (opq : Nat) (ps : List (Nat × TsEntry)) :
    List GoVal :=
  ps.map (fun p => GoVal.ctrl
    (CtrlVal.streamEnd bucketn opq McdStatus.success p.1))

theorem removeUint16_cons (v : Nat) (rest : List Nat) (h : v ∉ rest) :
    removeUint16 v (v :: rest) = rest := by
  simp only [removeUint16, List.filter_cons, decide_not, ne_eq,
    decide_eq_true_eq]
  rw [if_neg (by simp)]
  refine List.filter_eq_self.mpr ?_
  intro x hx
  simp only [Bool.not_eq_true', decide_eq_false_iff_not]
  exact fun he => h (he ▸ hx)

theorem foldl_append_req (ps : List (Nat × TsEntry)) :
    ∀ a : TsVbuuid,
      ps.foldl (fun a p => a.append p.1 p.2.seqno p.2.vbuuid 0 0) a =
        { a with entries := a.entries ++
            ps.map (fun p => (p.1, ⟨p.2.seqno, p.2.vbuuid, 0, 0⟩)) } := by
  induction ps with
  | nil => intro a; simp
  | cons p rest ih =>
    intro a
    rw [List.foldl_cons, ih]
    simp [TsVbuuid.append]

theorem foldl_append_end (ps : List (Nat × TsEntry)) :
    ∀ a : TsVbuuid,
      ps.foldl (fun a p => a.append p.1 0 0 0 0) a =
        { a with entries := a.entries ++
            ps.map (fun p => (p.1, ⟨0, 0, 0, 0⟩)) } := by
  induction ps with
  | nil => intro a; simp
  | cons p rest ih =>
    intro a
    rw [List.foldl_cons, ih]
    simp [TsVbuuid.append]

theorem reqAcks_cons (bucketn : String) (opq : Nat) (p : Nat × TsEntry)
    (rest : List (Nat × TsEntry)) :
    reqAcks bucketn opq (p :: rest) =
      GoVal.ctrl (CtrlVal.streamRequest bucketn opq McdStatus.success p.1
        p.2.vbuuid p.2.seqno) :: reqAcks bucketn opq rest := by
  simp [reqAcks]

theorem endAcks_cons (bucketn : String) (opq : Nat) (p : Nat × TsEntry)
    (rest : List (Nat × TsEntry)) :
    endAcks bucketn opq (p :: rest) =
      GoVal.ctrl (CtrlVal.streamEnd bucketn opq McdStatus.success p.1) ::
        endAcks bucketn opq rest := by
  simp [endAcks]

theorem reqRun (opq : Nat) (bucketn : String) (ts : TsVbuuid) :
    ∀ (ps : List (Nat × TsEntry)) (fuel : Nat) (s : ReqWaitSt)
      (held : List GoVal),
      s.vbnos = ps.map Prod.fst → ps ≠ [] → (ps.map Prod.fst).Nodup →
      (∀ v ∈ ps.map Prod.fst, ts.hasVbno v = true) →
      ps.length ≤ fuel →
      waitLoop (reqCallb opq bucketn ts) fuel (reqAcks bucketn opq ps) s
          held =
        ({ s with
            actTs := ps.foldl
              (fun a p => a.append p.1 p.2.seqno p.2.vbuuid 0 0) s.actTs
            vbnos := [] }, false, [], held) := by
  intro ps
  induction ps with
  | nil => intro fuel s held _ hne _ _ _; exact absurd rfl hne
  | cons p rest ih =>
    intro fuel s held hv hne hnd hhas hlen
    cases fuel with
    | zero => exact absurd hlen (by simp)
    | succ n =>
      have hhead : ts.hasVbno p.1 = true := hhas p.1 (by simp)
      have hnotin : p.1 ∉ rest.map Prod.fst := by
        rw [List.map_cons, List.nodup_cons] at hnd
        exact hnd.1
      have hrm : removeUint16 p.1 s.vbnos = rest.map Prod.fst := by
        rw [hv, List.map_cons]
        exact removeUint16_cons _ _ hnotin
      have hcall : reqCallb opq bucketn ts s (GoVal.ctrl
          (CtrlVal.streamRequest bucketn opq McdStatus.success p.1 p.2.vbuuid
            p.2.seqno)) =
          ({ s with
              actTs := s.actTs.append p.1 p.2.seqno p.2.vbuuid 0 0
              vbnos := rest.map Prod.fst },
            if (rest.map Prod.fst).isEmpty then FbAction.done
            else FbAction.ok) := by
        simp only [reqCallb]
        rw [if_pos (by exact ⟨trivial, trivial, hhead⟩)]
        simp only [hrm]
        split <;> rfl
      rw [reqAcks_cons]
      cases rest with
      | nil =>
        simp only [List.map_nil, List.isEmpty_nil, if_true] at hcall
        simp only [waitLoop, hcall]
        simp [reqAcks]
      | cons q rest' =>
        simp only [List.map_cons, List.isEmpty_cons, if_false,
          Bool.false_eq_true] at hcall
        simp only [waitLoop, hcall]
        rw [ih n _ held rfl (by simp)
          (by rw [List.map_cons, List.nodup_cons] at hnd; exact hnd.2)
          (fun v hv2 => hhas v
            (by rw [List.map_cons]; exact List.mem_cons_of_mem _ hv2))
          (by simpa using Nat.le_of_succ_le_succ hlen)]
        simp [List.foldl_cons]

theorem endRun (opq : Nat) (bucketn : String) (ts : TsVbuuid) :
    ∀ (ps : List (Nat × TsEntry)) (fuel : Nat) (s : EndWaitSt)
      (held : List GoVal),
      s.vbnos = ps.map Prod.fst → ps ≠ [] → (ps.map Prod.fst).Nodup →
      (∀ v ∈ ps.map Prod.fst, ts.hasVbno v = true) →
      ps.length ≤ fuel →
      waitLoop (endCallb opq bucketn ts) fuel (endAcks bucketn opq ps) s
          held =
        ({ s with
            endTs := ps.foldl (fun a p => a.append p.1 0 0 0 0) s.endTs
            vbnos := [] }, false, [], held) := by
  intro ps
  induction ps with
  | nil => intro fuel s held _ hne _ _ _; exact absurd rfl hne
  | cons p rest ih =>
    intro fuel s held hv hne hnd hhas hlen
    cases fuel with
    | zero => exact absurd hlen (by simp)
    | succ n =>
      have hhead : ts.hasVbno p.1 = true := hhas p.1 (by simp)
      have hnotin : p.1 ∉ rest.map Prod.fst := by
        rw [List.map_cons, List.nodup_cons] at hnd
        exact hnd.1
      have hrm : removeUint16 p.1 s.vbnos = rest.map Prod.fst := by
        rw [hv, List.map_cons]
        exact removeUint16_cons _ _ hnotin
      have hcall : endCallb opq bucketn ts s (GoVal.ctrl
          (CtrlVal.streamEnd bucketn opq McdStatus.success p.1)) =
          ({ s with
              endTs := s.endTs.append p.1 0 0 0 0
              vbnos := rest.map Prod.fst },
            if (rest.map Prod.fst).isEmpty then FbAction.done
            else FbAction.ok) := by
        simp only [endCallb]
        rw [if_pos (by exact ⟨trivial, trivial, hhead⟩)]
        simp only [hrm]
        split <;> rfl
      rw [endAcks_cons]
      cases rest with
      | nil =>
        simp only [List.map_nil, List.isEmpty_nil, if_true] at hcall
        simp only [waitLoop, hcall]
        simp [endAcks]
      | cons q rest' =>
        simp only [List.map_cons, List.isEmpty_cons, if_false,
          Bool.false_eq_true] at hcall
        simp only [waitLoop, hcall]
        rw [ih n _ held rfl (by simp)
          (by rw [List.map_cons, List.nodup_cons] at hnd; exact hnd.2)
          (fun v hv2 => hhas v
            (by rw [List.map_cons]; exact List.mem_cons_of_mem _ hv2))
          (by simpa using Nat.le_of_succ_le_succ hlen)]
        simp [List.foldl_cons]

theorem waitStreamRequests_perfect (env : Env) (opq : Nat)
    (pooln bucketn : String) (ts : TsVbuuid)
    (hne : ts.entries ≠ []) (hnd : ts.getVbnos.Nodup)
    (hcut : ts.entries.length ≤ env.cut bucketn) :
    waitStreamRequests env opq pooln bucketn ts
        (reqAcks bucketn opq ts.entries) =
      (⟨ts.pool, ts.bucket, []⟩, ⟨ts.pool, ts.bucket, []⟩,
        ⟨ts.pool, ts.bucket,
          ts.entries.map (fun p => (p.1, ⟨p.2.seqno, p.2.vbuuid, 0, 0⟩))⟩,
        none, []) := by
  have hge : ts.getVbnos ≠ [] := by
    intro h
    exact hne (List.map_eq_nil_iff.mp h)
  rw [waitStreamRequests]
  rw [if_neg (by simpa [List.isEmpty_iff] using hge)]
  simp only [waitOnFeedback]
  simp only [reqRun opq bucketn ts ts.entries (env.cut bucketn)
    ⟨⟨ts.pool, ts.bucket, []⟩, ⟨ts.pool, ts.bucket, []⟩,
      ⟨ts.pool, ts.bucket, []⟩, ts.getVbnos, none⟩ [] rfl hne hnd
    (fun v hv => by
      simp only [TsVbuuid.hasVbno, decide_eq_true_eq]
      exact hv)
    hcut]
  simp [foldl_append_req]

theorem waitStreamEnds_perfect (env : Env) (opq : Nat) (bucketn : String)
    (ts : TsVbuuid)
    (hne : ts.entries ≠ []) (hnd : ts.getVbnos.Nodup)
    (hcut : ts.entries.length ≤ env.cut bucketn) :
    waitStreamEnds env opq bucketn ts (endAcks bucketn opq ts.entries) =
      (⟨ts.pool, ts.bucket,
          ts.entries.map (fun p => (p.1, ⟨0, 0, 0, 0⟩))⟩,
        ⟨ts.pool, ts.bucket, []⟩, none, []) := by
  have hge : ts.getVbnos ≠ [] := by
    intro h
    exact hne (List.map_eq_nil_iff.mp h)
  rw [waitStreamEnds]
  rw [if_neg (by simpa [List.isEmpty_iff] using hge)]
  simp only [waitOnFeedback]
  simp only [endRun opq bucketn ts ts.entries (env.cut bucketn)
    ⟨⟨ts.pool, ts.bucket, []⟩, ⟨ts.pool, ts.bucket, []⟩, ts.getVbnos, none⟩
    [] rfl hne hnd
    (fun v hv => by
      simp only [TsVbuuid.hasVbno, decide_eq_true_eq]
      exact hv)
    hcut]
  simp [foldl_append_end]

theorem filterByVbuckets_id {ts : TsVbuuid} {vb : List Nat}
    (h : ∀ p ∈ ts.entries, p.1 ∉ vb) : ts.filterByVbuckets vb = ts := by
  simp only [TsVbuuid.filterByVbuckets]
  rw [List.filter_eq_self.mpr (fun p hp => by simpa using h p hp)]

theorem filterByVbuckets_nil (ts : TsVbuuid) : ts.filterByVbuckets [] = ts :=
  filterByVbuckets_id (fun p _ => by simp)

theorem union_keep {ts o : TsVbuuid}
    (h : ∀ p ∈ o.entries, p.1 ∉ ts.getVbnos) :
    ts.union (some o) = { ts with entries := ts.entries ++ o.entries } := by
  simp only [TsVbuuid.union]
  rw [List.filter_eq_self.mpr (fun p hp => by
    simp [TsVbuuid.hasVbno, h p hp])]

theorem bucketFeed_start_ok {env : Env} {f : Feed} {opq : Nat}
    {ts0 : TsVbuuid}
    (hbd : env.bucketDetails ts0.pool ts0.bucket ts0.getVbnos = true)
    (hof : env.openFeed ts0.pool ts0.bucket = none)
    (hso : env.startStreamsOk opq ts0 = true) :
    bucketFeed env f opq false true ts0 =
      ([UpCall.startVb opq ts0], none) := by
  simp [bucketFeed, hbd, hof, hso]

theorem bucketFeed_end_ok {env : Env} {f : Feed} {opq : Nat}
    {ts0 : TsVbuuid}
    (hbd : env.bucketDetails ts0.pool ts0.bucket ts0.getVbnos = true)
    (hof : env.openFeed ts0.pool ts0.bucket = none)
    (heo : env.endStreamsOk opq ts0 = true) :
    bucketFeed env f opq true false ts0 =
      ([UpCall.endVb opq ts0], none) := by
  simp [bucketFeed, hbd, hof, heo]

/-- `demoEnv` with a two-dequeue reconciler budget. -/
def c6Env : Env :=
  { demoEnv with cut := fun _ => 2 }

/-- The request timestamp of the C6 counterexample. -/
def c6Ts : TsVbuuid := tsOf "b" [1, 2]

/-- Pre-state of the C6 counterexample: partition 1 already active for
bucket `"b"`, nothing outstanding, and the SUCCESS acknowledgement for the
one partition `start` will actually request (partition 2) waiting on the
back channel. -/
def c6FeedPre : Feed :=
  { initFeed "t" with
    actTss := [("b", tsOf "b" [1])]
    rollTss := [("b", ⟨"default", "b", []⟩)]
    reqTss := [("b", ⟨"default", "b", []⟩)]
    backch :=
      [GoVal.ctrl (CtrlVal.streamRequest "b" 7 McdStatus.success 2 7 102)] }

/-- The feed after `start`, with the SUCCESS stream-end acknowledgements
for both partitions of the shutdown request on the back channel. -/
def c6Feed2 : Feed :=
  { (start c6Env c6FeedPre ⟨"tcp", [c6Ts], demoSub⟩ 7).1 with
    backch :=
      [GoVal.ctrl (CtrlVal.streamEnd "b" 9 McdStatus.success 1),
       GoVal.ctrl (CtrlVal.streamEnd "b" 9 McdStatus.success 2)] }

/-- C6 counterexample: a run in which every stream is acknowledged with
SUCCESS and both calls return nil errors, yet `Start` followed by
`ShutdownVbuckets` on the same request does not restore `actTs["b"]`: the
shutdown also ends partition 1, which was active before the `start` call,
because the shutdown timestamp is only intersected with the local
topology, not with what the `start` call actually started. -/
theorem start_shutdown_not_inverse :
    (start c6Env c6FeedPre ⟨"tcp", [c6Ts], demoSub⟩ 7).2.2 = none ∧
    (shutdownVbuckets c6Env c6Feed2 ⟨[c6Ts]⟩ 9).2.2 = none ∧
    alookup c6FeedPre.actTss "b" = some (tsOf "b" [1]) ∧
    alookup (shutdownVbuckets c6Env c6Feed2 ⟨[c6Ts]⟩ 9).1.actTss "b" =
      some ⟨"default", "b", []⟩ ∧
    alookup (shutdownVbuckets c6Env c6Feed2 ⟨[c6Ts]⟩ 9).1.actTss "b" ≠
      alookup c6FeedPre.actTss "b" := by
  refine ⟨?_, ?_, ?_, ?_, ?_⟩ <;> decide

/-- C6 (amended): `Start` followed by `ShutdownVbuckets` on the same
single-bucket request restores `reqTs[b]` and `actTs[b]` to their values
before the `start` call, provided the run is the fully successful one the
claim describes and the request is disjoint from the bucket's current
active and outstanding partitions: the subscriber processing is a no-op,
every requested partition is local, the bucket is present in all three
timestamp maps, the requested partitions are disjoint from `actTs[b]` and
`reqTs[b]` (and conversely), the request has no duplicate partitions, the
collaborator calls succeed, the reconciler budget covers the request, and
each phase finds exactly its SUCCESS acknowledgements on the back channel
in request order. -/
theorem start_shutdown_roundtrip {env : Env} {feed : Feed} {ts0 : TsVbuuid}
    {et : String} {sub : SubReq} {opq1 opq2 : Nat} {vbnos : List Nat}
    {actPre rollPre reqPre : TsVbuuid}
    (hsub : processSubscribers env { feed with endpointType := et } sub =
      ({ feed with endpointType := et }, none))
    (hloc : env.localVbuckets ts0.pool ts0.bucket = some vbnos)
    (hsel : ts0.selectByVbuckets vbnos = ts0)
    (hact : alookup feed.actTss ts0.bucket = some actPre)
    (hroll : alookup feed.rollTss ts0.bucket = some rollPre)
    (hreq : alookup feed.reqTss ts0.bucket = some reqPre)
    (hfa : ∀ p ∈ ts0.entries, p.1 ∉ actPre.getVbnos)
    (hfq : ∀ p ∈ ts0.entries, p.1 ∉ reqPre.getVbnos)
    (haf : ∀ p ∈ actPre.entries, p.1 ∉ ts0.getVbnos)
    (hqf : ∀ p ∈ reqPre.entries, p.1 ∉ ts0.getVbnos)
    (hpool : reqPre.pool = ts0.pool) (hbkt : reqPre.bucket = ts0.bucket)
    (hne : ts0.entries ≠ []) (hnd : ts0.getVbnos.Nodup)
    (hbd : env.bucketDetails ts0.pool ts0.bucket ts0.getVbnos = true)
    (hof : env.openFeed ts0.pool ts0.bucket = none)
    (hso : env.startStreamsOk opq1 ts0 = true)
    (heo : env.endStreamsOk opq2 ts0 = true)
    (hcut : ts0.entries.length ≤ env.cut ts0.bucket)
    (hbch : feed.backch = reqAcks ts0.bucket opq1 ts0.entries) :
    (start env feed ⟨et, [ts0], sub⟩ opq1).2.2 = none ∧
    (shutdownVbuckets env
        { (start env feed ⟨et, [ts0], sub⟩ opq1).1 with
          backch := endAcks ts0.bucket opq2 ts0.entries }
        ⟨[ts0]⟩ opq2).2.2 = none ∧
    alookup (shutdownVbuckets env
        { (start env feed ⟨et, [ts0], sub⟩ opq1).1 with
          backch := endAcks ts0.bucket opq2 ts0.entries }
        ⟨[ts0]⟩ opq2).1.reqTss ts0.bucket = alookup feed.reqTss ts0.bucket ∧
    alookup (shutdownVbuckets env
        { (start env feed ⟨et, [ts0], sub⟩ opq1).1 with
          backch := endAcks ts0.bucket opq2 ts0.entries }
        ⟨[ts0]⟩ opq2).1.actTss ts0.bucket = alookup feed.actTss ts0.bucket := by
  have hfa' : ts0.filterByVbuckets actPre.getVbnos = ts0 :=
    filterByVbuckets_id hfa
  have hfq' : ts0.filterByVbuckets reqPre.getVbnos = ts0 :=
    filterByVbuckets_id hfq
  have hun : ts0.union (some reqPre) =
      { ts0 with entries := ts0.entries ++ reqPre.entries } := union_keep hqf
  have hw1 := waitStreamRequests_perfect env opq1 ts0.pool ts0.bucket ts0
    hne hnd hcut
  have hw2 := waitStreamEnds_perfect env opq2 ts0.bucket ts0 hne hnd hcut
  have hpsact : ∀ p ∈ ts0.entries.map
      (fun p => (p.1, (⟨p.2.seqno, p.2.vbuuid, 0, 0⟩ : TsEntry))),
      p.1 ∉ actPre.getVbnos := by
    intro p hp
    rcases List.mem_map.mp hp with ⟨q, hq, rfl⟩
    exact hfa q hq
  have hunA : actPre.union (some ⟨ts0.pool, ts0.bucket,
      ts0.entries.map (fun p => (p.1, ⟨p.2.seqno, p.2.vbuuid, 0, 0⟩))⟩) =
      { actPre with entries := actPre.entries ++
          ts0.entries.map (fun p => (p.1, ⟨p.2.seqno, p.2.vbuuid, 0, 0⟩)) } :=
    union_keep hpsact
  have hemp : ∀ pl bk, (⟨pl, bk, []⟩ : TsVbuuid).getVbnos = [] :=
    fun _ _ => rfl
  have hagv : (⟨ts0.pool, ts0.bucket, ts0.entries.map
      (fun p => (p.1, (⟨p.2.seqno, p.2.vbuuid, 0, 0⟩ : TsEntry)))⟩ :
      TsVbuuid).getVbnos = ts0.getVbnos := by
    simp [TsVbuuid.getVbnos, List.map_map, Function.comp]
  have hCfilter : ({ ts0 with entries := ts0.entries ++ reqPre.entries } :
      TsVbuuid).filterByVbuckets ts0.getVbnos =
      (⟨ts0.pool, ts0.bucket, reqPre.entries⟩ : TsVbuuid) := by
    simp only [TsVbuuid.filterByVbuckets, List.filter_append]
    rw [List.filter_eq_nil_iff.mpr (fun p hp => by
        simp only [decide_eq_true_eq, not_not]
        exact List.mem_map_of_mem Prod.fst hp),
      List.filter_eq_self.mpr (fun p hp => by
        simpa using hqf p hp),
      List.nil_append]
  have hreqC : (⟨ts0.pool, ts0.bucket, reqPre.entries⟩ : TsVbuuid) = reqPre := by
    rw [← hpool, ← hbkt]
  have hCfilter2 := hCfilter.trans hreqC
  have hreqfin : reqPre.filterByVbuckets ts0.getVbnos = reqPre :=
    filterByVbuckets_id hqf
  have hactfin : TsVbuuid.filterByVbuckets
      { actPre with entries := actPre.entries ++
          ts0.entries.map (fun p => (p.1, ⟨p.2.seqno, p.2.vbuuid, 0, 0⟩)) }
      ts0.getVbnos = actPre := by
    simp only [TsVbuuid.filterByVbuckets, List.filter_append]
    rw [List.filter_eq_self.mpr (fun p hp => by
        simpa using haf p hp),
      List.filter_eq_nil_iff.mpr (fun p hp => by
        simp only [decide_eq_true_eq, not_not]
        rcases List.mem_map.mp hp with ⟨q, hq, rfl⟩
        exact List.mem_map.mpr ⟨q, hq, rfl⟩),
      List.append_nil]
  have hegv : (⟨ts0.pool, ts0.bucket, ts0.entries.map
      (fun p => (p.1, (⟨0, 0, 0, 0⟩ : TsEntry)))⟩ :
      TsVbuuid).getVbnos = ts0.getVbnos := by
    simp [TsVbuuid.getVbnos, List.map_map, Function.comp]
  have hphase1 : (start env feed ⟨et, [ts0], sub⟩ opq1).2.2 = none ∧
      (start env feed ⟨et, [ts0], sub⟩ opq1).1.actTss =
        ainsert feed.actTss ts0.bucket
          { actPre with entries := actPre.entries ++
              ts0.entries.map (fun p => (p.1, ⟨p.2.seqno, p.2.vbuuid, 0, 0⟩)) } ∧
      (start env feed ⟨et, [ts0], sub⟩ opq1).1.reqTss =
        ainsert feed.reqTss ts0.bucket reqPre ∧
      alookup (start env feed ⟨et, [ts0], sub⟩ opq1).1.rollTss ts0.bucket =
        some ((rollPre.filterByVbuckets ts0.getVbnos).union
          (some ⟨ts0.pool, ts0.bucket, []⟩)) := by
    by_cases hkv : ts0.bucket ∈ feed.kvdata <;>
      refine ⟨?_, ?_, ?_, ?_⟩ <;>
    · simp only [start, hsub, List.foldl_cons, List.foldl_nil]
      simp only [startOneBucket, hloc, hsel, hact, hroll, hreq,
        Option.map_some', hfa', hfq', hun, bucketFeed_start_ok hbd hof hso,
        hkv, if_true, if_false, ite_true, ite_false]
      simp only [streamBookkeeping, hbch, hw1, TsVbuuid.unionO, hunA, hemp,
        hagv, filterByVbuckets_nil, hCfilter2, accumBucket,
        alookup_ainsert_self, ite_true, ite_false]
  obtain ⟨e1, e2, e3, e4⟩ := hphase1
  refine ⟨e1, ?_, ?_, ?_⟩ <;>
  · simp only [shutdownVbuckets, List.foldl_cons, List.foldl_nil]
    simp only [shutdownOneBucket, hloc, hsel, e2, e3, e4,
      alookup_ainsert_self, bucketFeed_end_ok hbd hof heo]
    simp only [hw2, hegv, hactfin, hreqfin, accumBucket,
      alookup_ainsert_self, hact, hreq]

/-- Request timestamp of the C6 round-trip witness. -/
def c6wTs : TsVbuuid := tsOf "b" [5, 6]

/-- Pre-state of the C6 round-trip witness: partition 1 active, partition 2
outstanding, the SUCCESS request acknowledgements for partitions 5 and 6
waiting on the back channel. -/
def c6wFeed : Feed :=
  { initFeed "t" with
    actTss := [("b", tsOf "b" [1])]
    rollTss := [("b", ⟨"default", "b", []⟩)]
    reqTss := [("b", tsOf "b" [2])]
    backch := reqAcks "b" 7 c6wTs.entries }

theorem start_shutdown_roundtrip_witness :
    (start c6Env c6wFeed ⟨"tcp", [c6wTs], demoSub⟩ 7).2.2 = none ∧
    (shutdownVbuckets c6Env
        { (start c6Env c6wFeed ⟨"tcp", [c6wTs], demoSub⟩ 7).1 with
          backch := endAcks c6wTs.bucket 9 c6wTs.entries }
        ⟨[c6wTs]⟩ 9).2.2 = none ∧
    alookup (shutdownVbuckets c6Env
        { (start c6Env c6wFeed ⟨"tcp", [c6wTs], demoSub⟩ 7).1 with
          backch := endAcks c6wTs.bucket 9 c6wTs.entries }
        ⟨[c6wTs]⟩ 9).1.reqTss c6wTs.bucket =
      alookup c6wFeed.reqTss c6wTs.bucket ∧
    alookup (shutdownVbuckets c6Env
        { (start c6Env c6wFeed ⟨"tcp", [c6wTs], demoSub⟩ 7).1 with
          backch := endAcks c6wTs.bucket 9 c6wTs.entries }
        ⟨[c6wTs]⟩ 9).1.actTss c6wTs.bucket =
      alookup c6wFeed.actTss c6wTs.bucket :=
  @start_shutdown_roundtrip c6Env c6wFeed c6wTs "tcp" demoSub 7 9
    [1, 2, 5, 6] (tsOf "b" [1]) ⟨"default", "b", []⟩ (tsOf "b" [2])
    rfl rfl (by decide) rfl rfl rfl (by decide) (by decide) (by decide)
    (by decide) rfl rfl (by decide) (by decide) rfl rfl rfl rfl (by decide)
    rfl

theorem shutdownVbuckets_invalidBucket_witness :
    (shutdownVbuckets demoEnv (initFeed "t") ⟨[tsOf "b" [5]]⟩ 9).2.2 ≠ none ∧
    alookup (shutdownVbuckets demoEnv (initFeed "t") ⟨[tsOf "b" [5]]⟩
      9).1.actTss "b" = alookup (initFeed "t").actTss "b" ∧
    alookup (shutdownVbuckets demoEnv (initFeed "t") ⟨[tsOf "b" [5]]⟩
      9).1.reqTss "b" = alookup (initFeed "t").reqTss "b" :=
  let h := @shutdownVbuckets_invalidBucket demoEnv (initFeed "t")
    ⟨[tsOf "b" [5]]⟩ 9 "b" (tsOf "b" [5])
    (List.mem_singleton.mpr rfl) rfl rfl (Or.inl rfl)
  ⟨h.2.1, h.2.2.2.1, h.2.2.2.2.2.1⟩

end Projector
